import Mathlib

/-!
SeamLang: AST traversal and the type-resolution pass.

A shallow embedding of

* `src/seam/ir/ast/statement.cpp`: the `visit(visitor*)` method (accept) of every statement kind,
* `src/ir/ast/visitor.h`: the macro-generated handler chain of `struct visitor`,
* `src/seam/parser/passes/type_resolver.cpp`: `struct resolver` and `type_resolver::run`.

The headers that declare the node classes (`statement.hpp`, `expression.hpp`, `type.hpp`) and
`expression.cpp` are missing from the repository's sources; what they contribute is modelled
from the specification and marked so.

A run of `visit` is modelled by its `outcome`: the node as the run leaves it, the visitor's
state, the sequence of nodes on which a handler was invoked, and the exception in flight.
-/

namespace seam

/-! ## Data model -/

/-- Modelled from the spec: `utils/position.hpp` is missing. A source position. -/
structure position where
  line : Nat
  column : Nat
deriving DecidableEq

/-- Modelled from the spec: the declaration is missing. The source range every node carries;
`resolver::visit(type_wrapper*)` reads `node->range.start`. -/
structure range where
  start : position
  finish : position
deriving DecidableEq

/-- Modelled from the spec: `type.hpp` is missing. The polymorphic value a `type_wrapper` slot
points to: an `unresolved_type` with its `name`, or a resolved type object. Resolved type objects
are shared, so one is identified by its handle. -/
inductive type where
  | unresolved_type (name : String)
  | resolved (object : Nat)
deriving DecidableEq

/-- Modelled from the spec: `expression.hpp` is missing. The polymorphic value of a
`number_wrapper` slot. -/
inductive number where
  | unresolved_number (text : String)
  | resolved (value : Nat)
deriving DecidableEq

/-- Modelled from the spec: `type.hpp` is missing. A `type_wrapper` node: a range and the
slot `value`. -/
structure type_wrapper where
  range : range
  value : type
deriving DecidableEq

/-- Modelled from the spec: `expression.hpp` is missing. A `number_wrapper` node. -/
structure number_wrapper where
  range : range
  value : number
deriving DecidableEq

/-- Modelled from the spec: `expression.hpp` is missing. The expression-side node kinds the
specification lists: `number_wrapper`, `call` (callee and argument list), `parameter` (a name
and a type reference) and `function_signature` (name, parameter list, declared return type). -/
inductive expression where
  | number (w : number_wrapper)
  | call (range : range) (function : expression) (arguments : List expression)
  | parameter (range : range) (name : String) (type : type_wrapper)
  | function_signature (range : range) (name : String) (parameters : List expression)
      (return_type : type_wrapper)

/-- Modelled from the spec: `statement.hpp` is missing. One constructor per class that has a
`visit` method in `statement.cpp`; the fields `signature`, `body`, `value`, `condition`,
`main_body`, `else_body`, `initial`, `final`, `step` are the members those methods name. The
type slot of a variable declaration, the aliased type reference of an alias definition and the
`body` that `while_loop` and `numerical_for_loop` have as loops are taken from the
specification's data model. `extern_function_definition` has no `visit` method in
`statement.cpp` and is left out. -/
inductive statement where
  | restricted_block (range : range) (body : List statement)
  | function_definition (range : range) (signature : expression) (body : statement)
  | block (range : range) (body : List statement)
  | ret (range : range) (value : Option expression)
  | variable_declaration (range : range) (name : String) (type : type_wrapper)
      (value : expression)
  | variable_assignment (range : range) (name : String) (value : expression)
  | if_stat (range : range) (condition : expression) (main_body : statement)
      (else_body : Option statement)
  | loop (range : range) (body : statement)
  | numerical_for_loop (range : range) (initial final step : expression) (body : statement)
  | while_loop (range : range) (condition : expression) (body : statement)
  | alias_type_definition (range : range) (name : String) (target : type_wrapper)
  | class_type_definition (range : range) (name : String) (body : statement)

/-- A pointer to a node of any kind, as a handler receives it. -/
inductive node where
  | statement (s : statement)
  | expression (e : expression)
  | type_wrapper (w : type_wrapper)

/-! ## Visitors and the traversal -/

/-- A visitor with state `σ` whose handlers may throw an `ε`. `visit_statement` and
`visit_expression` stand for the overload set `bool visit(T*)` over the statement and
expression classes (the handler sees which node it got); they return the descend flag. The two
wrapper handlers may also assign the wrapper's slot, which is the only mutation of the tree any
pass of the repository performs. -/
structure visitor (σ ε : Type) where
  visit_statement : statement → σ → Except ε (Bool × σ)
  visit_expression : expression → σ → Except ε (Bool × σ)
  visit_number_wrapper : number_wrapper → σ → Except ε (Bool × number × σ)
  visit_type_wrapper : type_wrapper → σ → Except ε (Bool × type × σ)

/-- What a call of `n->visit(vst)` leaves behind: the node as it is afterwards, the visitor
state, the nodes on which a handler was invoked (in order of invocation) and the exception in
flight, if a handler threw. -/
structure outcome (α σ ε : Type) where
  node : α
  state : σ
  trace : List seam.node
  error : Option ε

/-- Result of `if (vst->visit(this))`: the descend flag, the state after the handler and the
exception if the handler threw (then nothing is descended into). -/
def handler_result {σ ε : Type} (r : Except ε (Bool × σ)) (st : σ) : Bool × σ × Option ε :=
  match r with
  | .ok (b, st') => (b, st', none)
  | .error e => (false, st, some e)

/-- Sequencing of two statements of a method body: `f` runs on the state `o` left, unless an
exception is in flight, in which case the second node `b` is not touched. -/
def outcome.next {α β σ ε : Type} (o : outcome α σ ε) (b : β) (f : σ → outcome β σ ε) :
    outcome β σ ε :=
  match o.error with
  | some e => ⟨b, o.state, [], some e⟩
  | none => f o.state

/-- Modelled from the spec: `type_wrapper::visit` is missing. The wrapper invokes the handler for
its own type and owns no child node. -/
def type_wrapper.visit {σ ε : Type} (vst : visitor σ ε) (w : type_wrapper) (st : σ) :
    outcome type_wrapper σ ε :=
  match vst.visit_type_wrapper w st with
  | .ok (_, v, st') => ⟨{ w with value := v }, st', [.type_wrapper w], none⟩
  | .error e => ⟨w, st, [.type_wrapper w], some e⟩

/-- Modelled from the spec: `number_wrapper::visit` is missing. The wrapper invokes the handler
for its own type and owns no child node. -/
def number_wrapper.visit {σ ε : Type} (vst : visitor σ ε) (w : number_wrapper) (st : σ) :
    outcome number_wrapper σ ε :=
  match vst.visit_number_wrapper w st with
  | .ok (_, v, st') => ⟨{ w with value := v }, st', [.expression (.number w)], none⟩
  | .error e => ⟨w, st, [.expression (.number w)], some e⟩

mutual
/-- Modelled from the spec: `expression.cpp` is missing. Every expression node invokes the
handler for its own type and, if it says continue, the `visit` of its owned children in
declaration order. -/
def expression.visit {σ ε : Type} (vst : visitor σ ε) : expression → σ → outcome expression σ ε
  | .number w, st =>
    let o := number_wrapper.visit vst w st
    ⟨.number o.node, o.state, o.trace, o.error⟩
  | .call r function arguments, st =>
    match handler_result (vst.visit_expression (.call r function arguments) st) st with
    | (true, st, _) =>
      let o₁ := expression.visit vst function st
      let o₂ := o₁.next arguments (expression.visit_list vst arguments)
      ⟨.call r o₁.node o₂.node, o₂.state,
        .expression (.call r function arguments) :: (o₁.trace ++ o₂.trace), o₂.error⟩
    | (false, st, e) =>
      ⟨.call r function arguments, st, [.expression (.call r function arguments)], e⟩
  | .parameter r name type, st =>
    match handler_result (vst.visit_expression (.parameter r name type) st) st with
    | (true, st, _) =>
      let o₁ := type_wrapper.visit vst type st
      ⟨.parameter r name o₁.node, o₁.state,
        .expression (.parameter r name type) :: o₁.trace, o₁.error⟩
    | (false, st, e) =>
      ⟨.parameter r name type, st, [.expression (.parameter r name type)], e⟩
  | .function_signature r name parameters return_type, st =>
    match handler_result
      (vst.visit_expression (.function_signature r name parameters return_type) st) st with
    | (true, st, _) =>
      let o₁ := expression.visit_list vst parameters st
      let o₂ := o₁.next return_type (type_wrapper.visit vst return_type)
      ⟨.function_signature r name o₁.node o₂.node, o₂.state,
        .expression (.function_signature r name parameters return_type)
          :: (o₁.trace ++ o₂.trace), o₂.error⟩
    | (false, st, e) =>
      ⟨.function_signature r name parameters return_type, st,
        [.expression (.function_signature r name parameters return_type)], e⟩
/-- Visit of the elements of an expression list in sequence. -/
def expression.visit_list {σ ε : Type} (vst : visitor σ ε) :
    List expression → σ → outcome (List expression) σ ε
  | [], st => ⟨[], st, [], none⟩
  | e :: rest, st =>
    let o₁ := expression.visit vst e st
    let o₂ := o₁.next rest (expression.visit_list vst rest)
    ⟨o₁.node :: o₂.node, o₂.state, o₁.trace ++ o₂.trace, o₂.error⟩
end

mutual
/-- The `visit(visitor* vst)` methods of `statement.cpp`, one case per method. -/
def statement.visit {σ ε : Type} (vst : visitor σ ε) : statement → σ → outcome statement σ ε
  | .restricted_block r body, st =>
    match handler_result (vst.visit_statement (.restricted_block r body) st) st with
    | (true, st, _) =>
      let o := statement.visit_list vst body st
      ⟨.restricted_block r o.node, o.state,
        .statement (.restricted_block r body) :: o.trace, o.error⟩
    | (false, st, e) =>
      ⟨.restricted_block r body, st, [.statement (.restricted_block r body)], e⟩
  | .function_definition r signature body, st =>
    match handler_result (vst.visit_statement (.function_definition r signature body) st) st with
    | (true, st, _) =>
      let o₁ := expression.visit vst signature st
      let o₂ := o₁.next body (statement.visit vst body)
      ⟨.function_definition r o₁.node o₂.node, o₂.state,
        .statement (.function_definition r signature body) :: (o₁.trace ++ o₂.trace), o₂.error⟩
    | (false, st, e) =>
      ⟨.function_definition r signature body, st,
        [.statement (.function_definition r signature body)], e⟩
  | .block r body, st =>
    match handler_result (vst.visit_statement (.block r body) st) st with
    | (true, st, _) =>
      let o := statement.visit_list vst body st
      ⟨.block r o.node, o.state, .statement (.block r body) :: o.trace, o.error⟩
    | (false, st, e) => ⟨.block r body, st, [.statement (.block r body)], e⟩
  | .ret r none, st =>
    match handler_result (vst.visit_statement (.ret r none) st) st with
    | (_, st, e) => ⟨.ret r none, st, [.statement (.ret r none)], e⟩
  | .ret r (some value), st =>
    match handler_result (vst.visit_statement (.ret r (some value)) st) st with
    | (true, st, _) =>
      let o := expression.visit vst value st
      ⟨.ret r (some o.node), o.state, .statement (.ret r (some value)) :: o.trace, o.error⟩
    | (false, st, e) => ⟨.ret r (some value), st, [.statement (.ret r (some value))], e⟩
  | .variable_declaration r name type value, st =>
    match handler_result (vst.visit_statement (.variable_declaration r name type value) st) st with
    | (true, st, _) =>
      let o := expression.visit vst value st
      ⟨.variable_declaration r name type o.node, o.state,
        .statement (.variable_declaration r name type value) :: o.trace, o.error⟩
    | (false, st, e) =>
      ⟨.variable_declaration r name type value, st,
        [.statement (.variable_declaration r name type value)], e⟩
  | .variable_assignment r name value, st =>
    match handler_result (vst.visit_statement (.variable_assignment r name value) st) st with
    | (true, st, _) =>
      let o := expression.visit vst value st
      ⟨.variable_assignment r name o.node, o.state,
        .statement (.variable_assignment r name value) :: o.trace, o.error⟩
    | (false, st, e) =>
      ⟨.variable_assignment r name value, st,
        [.statement (.variable_assignment r name value)], e⟩
  | .if_stat r condition main_body none, st =>
    match handler_result (vst.visit_statement (.if_stat r condition main_body none) st) st with
    | (true, st, _) =>
      let o₁ := expression.visit vst condition st
      let o₂ := o₁.next main_body (statement.visit vst main_body)
      ⟨.if_stat r o₁.node o₂.node none, o₂.state,
        .statement (.if_stat r condition main_body none) :: (o₁.trace ++ o₂.trace), o₂.error⟩
    | (false, st, e) =>
      ⟨.if_stat r condition main_body none, st,
        [.statement (.if_stat r condition main_body none)], e⟩
  | .if_stat r condition main_body (some else_body), st =>
    match handler_result
      (vst.visit_statement (.if_stat r condition main_body (some else_body)) st) st with
    | (true, st, _) =>
      let o₁ := expression.visit vst condition st
      let o₂ := o₁.next main_body (statement.visit vst main_body)
      let o₃ := o₂.next else_body (statement.visit vst else_body)
      ⟨.if_stat r o₁.node o₂.node (some o₃.node), o₃.state,
        .statement (.if_stat r condition main_body (some else_body))
          :: (o₁.trace ++ o₂.trace ++ o₃.trace), o₃.error⟩
    | (false, st, e) =>
      ⟨.if_stat r condition main_body (some else_body), st,
        [.statement (.if_stat r condition main_body (some else_body))], e⟩
  | .loop r body, st =>
    match handler_result (vst.visit_statement (.loop r body) st) st with
    | (true, st, _) =>
      let o := statement.visit vst body st
      ⟨.loop r o.node, o.state, .statement (.loop r body) :: o.trace, o.error⟩
    | (false, st, e) => ⟨.loop r body, st, [.statement (.loop r body)], e⟩
  | .numerical_for_loop r initial final step body, st =>
    match handler_result
      (vst.visit_statement (.numerical_for_loop r initial final step body) st) st with
    | (true, st, _) =>
      let o₁ := expression.visit vst initial st
      let o₂ := o₁.next final (expression.visit vst final)
      let o₃ := o₂.next step (expression.visit vst step)
      ⟨.numerical_for_loop r o₁.node o₂.node o₃.node body, o₃.state,
        .statement (.numerical_for_loop r initial final step body)
          :: (o₁.trace ++ o₂.trace ++ o₃.trace), o₃.error⟩
    | (false, st, e) =>
      ⟨.numerical_for_loop r initial final step body, st,
        [.statement (.numerical_for_loop r initial final step body)], e⟩
  | .while_loop r condition body, st =>
    match handler_result (vst.visit_statement (.while_loop r condition body) st) st with
    | (true, st, _) =>
      let o := expression.visit vst condition st
      ⟨.while_loop r o.node body, o.state,
        .statement (.while_loop r condition body) :: o.trace, o.error⟩
    | (false, st, e) =>
      ⟨.while_loop r condition body, st, [.statement (.while_loop r condition body)], e⟩
  | .alias_type_definition r name target, st =>
    match handler_result (vst.visit_statement (.alias_type_definition r name target) st) st with
    | (_, st, e) =>
      ⟨.alias_type_definition r name target, st,
        [.statement (.alias_type_definition r name target)], e⟩
  | .class_type_definition r name body, st =>
    match handler_result (vst.visit_statement (.class_type_definition r name body) st) st with
    | (true, st, _) =>
      let o := statement.visit vst body st
      ⟨.class_type_definition r name o.node, o.state,
        .statement (.class_type_definition r name body) :: o.trace, o.error⟩
    | (false, st, e) =>
      ⟨.class_type_definition r name body, st,
        [.statement (.class_type_definition r name body)], e⟩
/-- The range-for of `restricted_block::visit` and `block::visit`:
`for (const auto& statement : body) statement->visit(vst);`. -/
def statement.visit_list {σ ε : Type} (vst : visitor σ ε) :
    List statement → σ → outcome (List statement) σ ε
  | [], st => ⟨[], st, [], none⟩
  | s :: rest, st =>
    let o₁ := statement.visit vst s st
    let o₂ := o₁.next rest (statement.visit_list vst rest)
    ⟨o₁.node :: o₂.node, o₂.state, o₁.trace ++ o₂.trace, o₂.error⟩
end

/-! ## The resolver -/

/-- Modelled from the spec: `type_resolver.hpp` is missing. The type map: from a type name to
the resolved type object registered under it, `none` standing for `find(...) == cend()`. -/
abbrev type_map := String → Option Nat

/-- What a run of the resolver can end with other than a normal return: the
`utils::parser_exception` thrown at line 32, carrying a position and a message; or the
`static_cast<unresolved_type*>` of line 25 applied to a slot that does not hold an
`unresolved_type`, for which the source defines no behaviour. -/
inductive failure where
  | parser_exception (position : position) (message : String)
  | undefined_cast
deriving DecidableEq

/-- `struct resolver : visitor`. The state is what the pass has written to `std::cout`.
`visit(expression::number_wrapper*)` prints the slot's pointer and returns false;
`visit(type_wrapper*)` looks the held name up, assigns the entry to the slot or throws, and
returns false. Every other handler is the inherited default, which returns true. -/
def resolver (type_map_ : type_map) : visitor (List number) failure where
  visit_statement := fun _ st => .ok (true, st)
  visit_expression := fun _ st => .ok (true, st)
  visit_number_wrapper := fun node st => .ok (false, node.value, st ++ [node.value])
  visit_type_wrapper := fun node st =>
    match node.value with
    | .unresolved_type name =>
      match type_map_ name with
      | some it => .ok (false, .resolved it, st)
      | none =>
        .error (.parser_exception node.range.start "internal compiler error: cannot resolve type")
    | .resolved _ => .error .undefined_cast

/-- `type_resolver::run(node* node)`: builds a resolver over the map and visits the root. -/
def type_resolver.run (type_map_ : type_map) (root : statement) :
    outcome statement (List number) failure :=
  statement.visit (resolver type_map_) root []

/-! ## The handler chain of `visitor.h` -/

namespace visitor_h

/-- `struct visitor` of `visitor.h`: four virtual handlers `bool visit(T*)`, for `node`,
`statement`, `restricted_statement` and `restricted_block`. A pass derives from it and overrides
any of them; `none` stands for a handler the pass leaves as the macro generated it. A handler
sees the node `a` (the same object under every static type) and the pass's state. -/
structure visitor (α σ : Type) where
  node : Option (α → σ → Bool × σ)
  statement : Option (α → σ → Bool × σ)
  restricted_statement : Option (α → σ → Bool × σ)
  restricted_block : Option (α → σ → Bool × σ)

/-- The pass that overrides nothing. -/
def visitor.default (α σ : Type) : visitor α σ := ⟨none, none, none, none⟩

/-- `BASE_VISITOR(node)`: `virtual bool visit(node* a) { return true; }`. -/
def visit_node {α σ : Type} (v : visitor α σ) (a : α) (st : σ) : Bool × σ :=
  match v.node with
  | some h => h a st
  | none => (true, st)

/-- `VISITOR(node, statement)`:
`virtual bool visit(statement* a) { return visit(static_cast<node*>(a)); }`. -/
def visit_statement {α σ : Type} (v : visitor α σ) (a : α) (st : σ) : Bool × σ :=
  match v.statement with
  | some h => h a st
  | none => visit_node v a st

/-- `VISITOR(statement, restricted_statement)`. -/
def visit_restricted_statement {α σ : Type} (v : visitor α σ) (a : α) (st : σ) : Bool × σ :=
  match v.restricted_statement with
  | some h => h a st
  | none => visit_statement v a st

/-- `VISITOR(statement, restricted_block)`. -/
def visit_restricted_block {α σ : Type} (v : visitor α σ) (a : α) (st : σ) : Bool × σ :=
  match v.restricted_block with
  | some h => h a st
  | none => visit_statement v a st

end visitor_h

/-! ## Listings of a tree -/

mutual
/-- The type wrappers below an expression, in pre-order. -/
def expression.type_wrappers : expression → List type_wrapper
  | .number _ => []
  | .call _ function arguments =>
    function.type_wrappers ++ expression.type_wrappers_list arguments
  | .parameter _ _ type => [type]
  | .function_signature _ _ parameters return_type =>
    expression.type_wrappers_list parameters ++ [return_type]
/-- The type wrappers below the expressions of a list. -/
def expression.type_wrappers_list : List expression → List type_wrapper
  | [] => []
  | e :: rest => e.type_wrappers ++ expression.type_wrappers_list rest
end

mutual
/-- The type wrappers of a tree, in pre-order (children in declaration order, the body of a loop
last). With `slots` every one of them; without, all but the type slot of each variable
declaration and the target of each alias type definition, that is, the ones held by
expression nodes. -/
def statement.type_wrappers (slots : Bool) : statement → List type_wrapper
  | .restricted_block _ body => statement.type_wrappers_list slots body
  | .function_definition _ signature body =>
    signature.type_wrappers ++ statement.type_wrappers slots body
  | .block _ body => statement.type_wrappers_list slots body
  | .ret _ none => []
  | .ret _ (some value) => value.type_wrappers
  | .variable_declaration _ _ type value =>
    (if slots then [type] else []) ++ value.type_wrappers
  | .variable_assignment _ _ value => value.type_wrappers
  | .if_stat _ condition main_body none =>
    condition.type_wrappers ++ statement.type_wrappers slots main_body
  | .if_stat _ condition main_body (some else_body) =>
    condition.type_wrappers ++ statement.type_wrappers slots main_body
      ++ statement.type_wrappers slots else_body
  | .loop _ body => statement.type_wrappers slots body
  | .numerical_for_loop _ initial final step body =>
    initial.type_wrappers ++ final.type_wrappers ++ step.type_wrappers
      ++ statement.type_wrappers slots body
  | .while_loop _ condition body =>
    condition.type_wrappers ++ statement.type_wrappers slots body
  | .alias_type_definition _ _ target => if slots then [target] else []
  | .class_type_definition _ _ body => statement.type_wrappers slots body
/-- The type wrappers of the statements of a list. -/
def statement.type_wrappers_list (slots : Bool) : List statement → List type_wrapper
  | [] => []
  | s :: rest => statement.type_wrappers slots s ++ statement.type_wrappers_list slots rest
end

mutual
/-- The nodes of an expression, in pre-order. -/
def expression.nodes : expression → List node
  | .number w => [.expression (.number w)]
  | .call r function arguments =>
    .expression (.call r function arguments)
      :: (function.nodes ++ expression.nodes_list arguments)
  | .parameter r name type => [.expression (.parameter r name type), .type_wrapper type]
  | .function_signature r name parameters return_type =>
    .expression (.function_signature r name parameters return_type)
      :: (expression.nodes_list parameters ++ [.type_wrapper return_type])
/-- The nodes of the expressions of a list. -/
def expression.nodes_list : List expression → List node
  | [] => []
  | e :: rest => e.nodes ++ expression.nodes_list rest
end

mutual
/-- The nodes of a tree, in pre-order (children in declaration order, the body of a loop last).
With `slots` every node; without, all but the type slot of each variable declaration and the
target of each alias type definition. -/
def statement.nodes (slots : Bool) : statement → List node
  | .restricted_block r body =>
    .statement (.restricted_block r body) :: statement.nodes_list slots body
  | .function_definition r signature body =>
    .statement (.function_definition r signature body)
      :: (signature.nodes ++ statement.nodes slots body)
  | .block r body => .statement (.block r body) :: statement.nodes_list slots body
  | .ret r none => [.statement (.ret r none)]
  | .ret r (some value) => .statement (.ret r (some value)) :: value.nodes
  | .variable_declaration r name type value =>
    .statement (.variable_declaration r name type value)
      :: ((if slots then [.type_wrapper type] else []) ++ value.nodes)
  | .variable_assignment r name value =>
    .statement (.variable_assignment r name value) :: value.nodes
  | .if_stat r condition main_body none =>
    .statement (.if_stat r condition main_body none)
      :: (condition.nodes ++ statement.nodes slots main_body)
  | .if_stat r condition main_body (some else_body) =>
    .statement (.if_stat r condition main_body (some else_body))
      :: (condition.nodes ++ statement.nodes slots main_body
        ++ statement.nodes slots else_body)
  | .loop r body => .statement (.loop r body) :: statement.nodes slots body
  | .numerical_for_loop r initial final step body =>
    .statement (.numerical_for_loop r initial final step body)
      :: (initial.nodes ++ final.nodes ++ step.nodes ++ statement.nodes slots body)
  | .while_loop r condition body =>
    .statement (.while_loop r condition body)
      :: (condition.nodes ++ statement.nodes slots body)
  | .alias_type_definition r name target =>
    .statement (.alias_type_definition r name target)
      :: (if slots then [.type_wrapper target] else [])
  | .class_type_definition r name body =>
    .statement (.class_type_definition r name body) :: statement.nodes slots body
/-- The nodes of the statements of a list. -/
def statement.nodes_list (slots : Bool) : List statement → List node
  | [] => []
  | s :: rest => statement.nodes slots s ++ statement.nodes_list slots rest
end

mutual
/-- Whether a tree has no `while_loop` and no `numerical_for_loop` node. -/
def statement.no_while_for : statement → Bool
  | .restricted_block _ body => statement.no_while_for_list body
  | .function_definition _ _ body => body.no_while_for
  | .block _ body => statement.no_while_for_list body
  | .ret _ _ => true
  | .variable_declaration _ _ _ _ => true
  | .variable_assignment _ _ _ => true
  | .if_stat _ _ main_body none => main_body.no_while_for
  | .if_stat _ _ main_body (some else_body) => main_body.no_while_for && else_body.no_while_for
  | .loop _ body => body.no_while_for
  | .numerical_for_loop _ _ _ _ _ => false
  | .while_loop _ _ _ => false
  | .alias_type_definition _ _ _ => true
  | .class_type_definition _ _ body => body.no_while_for
/-- Whether no statement of a list has a `while_loop` or `numerical_for_loop` node. -/
def statement.no_while_for_list : List statement → Bool
  | [] => true
  | s :: rest => s.no_while_for && statement.no_while_for_list rest
end

/-! ## The traversal through a pointer to any node -/

/-- The call `n->visit(vst)` through a pointer to a node of any kind. -/
def node.visit {σ ε : Type} (vst : visitor σ ε) : node → σ → outcome node σ ε
  | .statement s, st =>
    let o := statement.visit vst s st
    ⟨.statement o.node, o.state, o.trace, o.error⟩
  | .expression e, st =>
    let o := expression.visit vst e st
    ⟨.expression o.node, o.state, o.trace, o.error⟩
  | .type_wrapper w, st =>
    let o := type_wrapper.visit vst w st
    ⟨.type_wrapper o.node, o.state, o.trace, o.error⟩

/-- The calls `n->visit(vst)` on the nodes of a sequence, one after the other. -/
def node.visit_list {σ ε : Type} (vst : visitor σ ε) : List node → σ → outcome (List node) σ ε
  | [], st => ⟨[], st, [], none⟩
  | n :: rest, st =>
    let o₁ := node.visit vst n st
    let o₂ := o₁.next rest (node.visit_list vst rest)
    ⟨o₁.node :: o₂.node, o₂.state, o₁.trace ++ o₂.trace, o₂.error⟩

/-- The children a statement owns, in declaration order, the body of a loop last: the nodes
that stand directly below it in `statement.nodes`. With `slots` all of them; without, all but
the type slot of a variable declaration and the target of an alias type definition. -/
def statement.owned_children (slots : Bool) : statement → List node
  | .restricted_block _ body => body.map .statement
  | .function_definition _ signature body => [.expression signature, .statement body]
  | .block _ body => body.map .statement
  | .ret _ none => []
  | .ret _ (some value) => [.expression value]
  | .variable_declaration _ _ type value =>
    (if slots then [.type_wrapper type] else []) ++ [.expression value]
  | .variable_assignment _ _ value => [.expression value]
  | .if_stat _ condition main_body none => [.expression condition, .statement main_body]
  | .if_stat _ condition main_body (some else_body) =>
    [.expression condition, .statement main_body, .statement else_body]
  | .loop _ body => [.statement body]
  | .numerical_for_loop _ initial final step body =>
    [.expression initial, .expression final, .expression step, .statement body]
  | .while_loop _ condition body => [.expression condition, .statement body]
  | .alias_type_definition _ _ target => if slots then [.type_wrapper target] else []
  | .class_type_definition _ _ body => [.statement body]

/-- The nodes below and including the node a pointer points to, in pre-order. -/
def node.nodes (slots : Bool) : seam.node → List seam.node
  | .statement s => s.nodes slots
  | .expression x => x.nodes
  | .type_wrapper w => [.type_wrapper w]

/-- Whether a statement is a `while_loop` or a `numerical_for_loop`. -/
def statement.is_while_or_for : statement → Bool
  | .numerical_for_loop _ _ _ _ _ => true
  | .while_loop _ _ _ => true
  | _ => false

/-- The handler a visitor runs on a node, as the node's `visit` invokes it: the state it leaves,
or the exception it throws. -/
def visitor.handle {σ ε : Type} (vst : visitor σ ε) : node → σ → Except ε σ
  | .statement s, st =>
    match vst.visit_statement s st with
    | .ok r => .ok r.2
    | .error e => .error e
  | .expression (.number w), st =>
    match vst.visit_number_wrapper w st with
    | .ok r => .ok r.2.2
    | .error e => .error e
  | .expression e, st =>
    match vst.visit_expression e st with
    | .ok r => .ok r.2
    | .error e => .error e
  | .type_wrapper w, st =>
    match vst.visit_type_wrapper w st with
    | .ok r => .ok r.2.2
    | .error e => .error e

/-- The handlers of a sequence of nodes run one after the other, up to the first that throws. -/
def visitor.handle_all {σ ε : Type} (vst : visitor σ ε) : List node → σ → Except ε σ
  | [], st => .ok st
  | n :: rest, st =>
    match vst.handle n st with
    | .ok st' => vst.handle_all rest st'
    | .error e => .error e

/-- A visitor all of whose handlers return true and never throw; it counts its invocations. -/
def counting_visitor : visitor Nat Unit where
  visit_statement := fun _ st => .ok (true, st + 1)
  visit_expression := fun _ st => .ok (true, st + 1)
  visit_number_wrapper := fun node st => .ok (true, node.value, st + 1)
  visit_type_wrapper := fun node st => .ok (true, node.value, st + 1)

/-- What a run that started in state `st`, invoked the handlers of `tr`, ended in `st'` and left
the exception `err` in flight has to satisfy: without an exception every handler of `tr`
returned; with the exception `e`, every handler but the last returned and the last threw `e`. -/
def aborts_at_failure {σ ε : Type} (vst : visitor σ ε) (st : σ) (tr : List node) (st' : σ) :
    Option ε → Prop
  | none => vst.handle_all tr st = .ok st'
  | some e => ∃ pre n, tr = pre ++ [n] ∧ vst.handle_all pre st = .ok st'
      ∧ vst.handle n st' = .error e

/-! ## Resolution of a sequence of wrappers -/

/-- The value `resolver::visit(type_wrapper*)` assigns to the slot of `w`, or what it fails
with. The handler neither reads nor changes the pass's state. -/
def resolve_slot (type_map_ : type_map) (w : type_wrapper) : Except failure type :=
  match (resolver type_map_).visit_type_wrapper w [] with
  | .ok r => .ok r.2.1
  | .error e => .error e

/-- The resolver's handler run on the wrappers of a sequence one after the other, up to the first
failure: the wrappers as they are afterwards and the failure, if any. -/
def resolve_all (type_map_ : type_map) : List type_wrapper → List type_wrapper × Option failure
  | [] => ([], none)
  | w :: rest =>
    match resolve_slot type_map_ w with
    | .ok v => ({ w with value := v } :: (resolve_all type_map_ rest).1,
        (resolve_all type_map_ rest).2)
    | .error e => (w :: rest, some e)

/-- How the wrappers `after` a run relate to the wrappers `before` it: without a failure there
are as many as before; with the failure `e`, the sequence splits at a wrapper `w` on which the
handler fails with `e`, and `w` and everything behind it are as before. -/
def failure_isolated (type_map_ : type_map) (before after : List type_wrapper) :
    Option failure → Prop
  | none => before.length = after.length
  | some e => ∃ pre pre' w post, before = pre ++ w :: post ∧ after = pre' ++ w :: post
      ∧ pre.length = pre'.length ∧ resolve_slot type_map_ w = .error e

/-- Whether a wrapper names a type that has no entry in the map. -/
def names_missing_type (type_map_ : type_map) (w : type_wrapper) : Bool :=
  match w.value with
  | .unresolved_type name => (type_map_ name).isNone
  | .resolved _ => false

/-- The message of the exception the resolver throws. -/
def cannot_resolve : String := "internal compiler error: cannot resolve type"

/-! ## A tree without its type slots -/

/-- A wrapper with its slot blanked. -/
def type_wrapper.forget_types (w : type_wrapper) : type_wrapper :=
  { w with value := .unresolved_type "" }

mutual
/-- An expression with every type slot below it blanked: what is left is the shape, the node
kinds, the children in their order, the ranges, the names and the number slots. -/
def expression.forget_types : expression → expression
  | .number w => .number w
  | .call r function arguments =>
    .call r function.forget_types (expression.forget_types_list arguments)
  | .parameter r name type => .parameter r name type.forget_types
  | .function_signature r name parameters return_type =>
    .function_signature r name (expression.forget_types_list parameters)
      return_type.forget_types
/-- The expressions of a list with every type slot blanked. -/
def expression.forget_types_list : List expression → List expression
  | [] => []
  | x :: rest => x.forget_types :: expression.forget_types_list rest
end

mutual
/-- A tree with every type slot in it blanked. -/
def statement.forget_types : statement → statement
  | .restricted_block r body => .restricted_block r (statement.forget_types_list body)
  | .function_definition r signature body =>
    .function_definition r signature.forget_types body.forget_types
  | .block r body => .block r (statement.forget_types_list body)
  | .ret r none => .ret r none
  | .ret r (some value) => .ret r (some value.forget_types)
  | .variable_declaration r name type value =>
    .variable_declaration r name type.forget_types value.forget_types
  | .variable_assignment r name value => .variable_assignment r name value.forget_types
  | .if_stat r condition main_body none =>
    .if_stat r condition.forget_types main_body.forget_types none
  | .if_stat r condition main_body (some else_body) =>
    .if_stat r condition.forget_types main_body.forget_types (some else_body.forget_types)
  | .loop r body => .loop r body.forget_types
  | .numerical_for_loop r initial final step body =>
    .numerical_for_loop r initial.forget_types final.forget_types step.forget_types
      body.forget_types
  | .while_loop r condition body => .while_loop r condition.forget_types body.forget_types
  | .alias_type_definition r name target => .alias_type_definition r name target.forget_types
  | .class_type_definition r name body => .class_type_definition r name body.forget_types
/-- The statements of a list with every type slot blanked. -/
def statement.forget_types_list : List statement → List statement
  | [] => []
  | s :: rest => s.forget_types :: statement.forget_types_list rest
end

/-! ## The number wrappers of a tree -/

mutual
/-- The number wrappers below an expression, in pre-order. -/
def expression.number_wrappers : expression → List number_wrapper
  | .number w => [w]
  | .call _ function arguments =>
    function.number_wrappers ++ expression.number_wrappers_list arguments
  | .parameter _ _ _ => []
  | .function_signature _ _ parameters _ => expression.number_wrappers_list parameters
/-- The number wrappers below the expressions of a list. -/
def expression.number_wrappers_list : List expression → List number_wrapper
  | [] => []
  | x :: rest => x.number_wrappers ++ expression.number_wrappers_list rest
end

mutual
/-- The number wrappers of a tree, in pre-order, the body of a loop included. -/
def statement.number_wrappers : statement → List number_wrapper
  | .restricted_block _ body => statement.number_wrappers_list body
  | .function_definition _ signature body => signature.number_wrappers ++ body.number_wrappers
  | .block _ body => statement.number_wrappers_list body
  | .ret _ none => []
  | .ret _ (some value) => value.number_wrappers
  | .variable_declaration _ _ _ value => value.number_wrappers
  | .variable_assignment _ _ value => value.number_wrappers
  | .if_stat _ condition main_body none => condition.number_wrappers ++ main_body.number_wrappers
  | .if_stat _ condition main_body (some else_body) =>
    condition.number_wrappers ++ main_body.number_wrappers ++ else_body.number_wrappers
  | .loop _ body => body.number_wrappers
  | .numerical_for_loop _ initial final step body =>
    initial.number_wrappers ++ final.number_wrappers ++ step.number_wrappers
      ++ body.number_wrappers
  | .while_loop _ condition body => condition.number_wrappers ++ body.number_wrappers
  | .alias_type_definition _ _ _ => []
  | .class_type_definition _ _ body => body.number_wrappers
/-- The number wrappers of the statements of a list. -/
def statement.number_wrappers_list : List statement → List number_wrapper
  | [] => []
  | s :: rest => s.number_wrappers ++ statement.number_wrappers_list rest
end

/-! ## Precedence climbing -/

/-- Modelled from the spec: the lexer is an external collaborator. A lexeme as the expression
parser sees it: a name, an infix operator, or any other lexeme. -/
inductive lexeme where
  | name (text : String)
  | infix_operator (symbol : String)
  | other (text : String)
deriving DecidableEq

/-- Modelled from the spec: `expression.hpp` is missing. What `parse_sub_expression` builds: a
simple expression (a name) or a binary node with its operator, left child and right child. -/
inductive parsed_expression where
  | variable (name : String)
  | binary (operator : String) (left right : parsed_expression)
deriving DecidableEq

/-- The infix operator at the head of the lexemes still to be read, if there is one. -/
def pending_operator : List lexeme → Option String
  | .infix_operator symbol :: _ => some symbol
  | _ => none

/-- Modelled from the spec: `parser.cpp` is missing; `parser.hpp` declares
`parse_simple_expression`. The simple expressions needed here are names. Returns the
expression and the lexemes left. -/
def parse_simple_expression : List lexeme → Option (parsed_expression × List lexeme)
  | .name text :: rest => some (.variable text, rest)
  | _ => none

mutual
/-- Modelled from the spec: `parser.cpp` is missing; `parser.hpp` declares
`parse_sub_expression(std::size_t limit = 0)`, which returns the expression and the next
operator. It reads a simple expression and then, as long as an infix operator follows whose
precedence exceeds `limit`, consumes the operator, parses the right operand with the
operator's precedence as the limit, and makes the binary node the new left operand. The
precedence table is a parameter. `fuel` bounds the depth of calls; `none` is a parse error or
fuel run out. -/
def parse_sub_expression (precedence : String → Nat) :
    Nat → Nat → List lexeme → Option (parsed_expression × Option String × List lexeme)
  | 0, _, _ => none
  | fuel + 1, limit, lexemes =>
    match parse_simple_expression lexemes with
    | none => none
    | some (left, rest) => parse_sub_expression_loop precedence fuel limit left rest
/-- The loop of `parse_sub_expression` over the infix operators that follow `left`. -/
def parse_sub_expression_loop (precedence : String → Nat) :
    Nat → Nat → parsed_expression → List lexeme →
      Option (parsed_expression × Option String × List lexeme)
  | 0, _, _, _ => none
  | fuel + 1, limit, left, .infix_operator symbol :: rest =>
    if precedence symbol > limit then
      match parse_sub_expression precedence fuel (precedence symbol) rest with
      | none => none
      | some (right, _, rest') =>
        parse_sub_expression_loop precedence fuel limit (.binary symbol left right) rest'
    else some (left, some symbol, .infix_operator symbol :: rest)
  | _ + 1, _, left, lexemes => some (left, pending_operator lexemes, lexemes)
end

/-- Modelled from the spec: `parser.cpp` is missing; `parser.hpp` declares `parse_expression`.
The sub-expression parser called with limit 0 and fuel that suffices for the lexemes given. -/
def parse_expression (precedence : String → Nat) (lexemes : List lexeme) :
    Option (parsed_expression × Option String × List lexeme) :=
  parse_sub_expression precedence (2 * lexemes.length + 2) 0 lexemes

/-- A precedence table in which `*` and `/` bind tighter than `+` and `-`. -/
def example_precedence : String → Nat := fun symbol =>
  if symbol = "*" then 2 else if symbol = "/" then 2 else 1

/-! ## The wrappers the traversal reaches -/

/-- The visitor of a pass that overrides no handler: every handler returns true, none throws,
no slot is assigned. -/
def default_visitor : visitor Unit Empty where
  visit_statement := fun _ st => .ok (true, st)
  visit_expression := fun _ st => .ok (true, st)
  visit_number_wrapper := fun node st => .ok (true, node.value, st)
  visit_type_wrapper := fun node st => .ok (true, node.value, st)

/-- The type wrapper a node pointer points to, if it points to one. -/
def node.as_type_wrapper : seam.node → Option seam.type_wrapper
  | .type_wrapper w => some w
  | _ => none

/-- The type wrappers among the nodes of a trace, in the order of the trace. -/
def visited_wrappers (trace : List node) : List type_wrapper :=
  trace.filterMap node.as_type_wrapper

/-- The type wrappers `visit` reaches below an expression, in the order it reaches them: those
on which it invokes a handler when every handler says continue. -/
def expression.reached_type_wrappers (x : expression) : List type_wrapper :=
  visited_wrappers (expression.visit default_visitor x ()).trace

/-- The type wrappers `visit` reaches below the expressions of a list. -/
def expression.reached_type_wrappers_list (xs : List expression) : List type_wrapper :=
  visited_wrappers (expression.visit_list default_visitor xs ()).trace

/-- The type wrappers `visit` reaches in a tree, in the order it reaches them: those on which
it invokes a handler when every handler says continue. -/
def statement.reached_type_wrappers (s : statement) : List type_wrapper :=
  visited_wrappers (statement.visit default_visitor s ()).trace

/-- The type wrappers `visit` reaches in the statements of a list. -/
def statement.reached_type_wrappers_list (ss : List statement) : List type_wrapper :=
  visited_wrappers (statement.visit_list default_visitor ss ()).trace

/-- The wrapper as the resolver's handler leaves it: with the slot the handler assigns, or as
it was if the handler fails. -/
def resolve_wrapper (type_map_ : type_map) (w : type_wrapper) : type_wrapper :=
  match resolve_slot type_map_ w with
  | .ok v => { w with value := v }
  | .error _ => w

/-! ## Example trees -/

/-- The range of a node on line `line`, from column `column` on. -/
def at_line (line column : Nat) : range := ⟨⟨line, column⟩, ⟨line, column + 3⟩⟩

/-- A type map that knows `int` and `bool`. -/
def example_map : type_map := fun name =>
  if name = "int" then some 0 else if name = "bool" then some 1 else none

/-- The unit `type T = int`. -/
def alias_unit : statement :=
  .restricted_block (at_line 1 1)
    [.alias_type_definition (at_line 1 1) "T" ⟨at_line 1 10, .unresolved_type "int"⟩]

/-- The unit `type T = missing`, whose target names a type no map entry exists for. -/
def dangling_alias_unit : statement :=
  .restricted_block (at_line 1 1)
    [.alias_type_definition (at_line 1 1) "T" ⟨at_line 1 10, .unresolved_type "missing"⟩]

/-- The signature `f(x: int, y: bool) -> int`. -/
def example_signature : expression :=
  .function_signature (at_line 1 1) "f"
    [.parameter (at_line 1 3) "x" ⟨at_line 1 6, .unresolved_type "int"⟩,
     .parameter (at_line 1 11) "y" ⟨at_line 1 14, .unresolved_type "bool"⟩]
    ⟨at_line 1 23, .unresolved_type "int"⟩

/-- A unit with one function whose body declares a variable, branches and returns a call. -/
def function_unit : statement :=
  .restricted_block (at_line 1 1)
    [.function_definition (at_line 1 1) example_signature
      (.block (at_line 2 1)
        [.variable_declaration (at_line 3 1) "z" ⟨at_line 3 8, .unresolved_type "int"⟩
            (.number ⟨at_line 3 14, .unresolved_number "5"⟩),
         .if_stat (at_line 4 1) (.number ⟨at_line 4 4, .unresolved_number "1"⟩)
            (.block (at_line 4 6) [.ret (at_line 5 1) none]) none,
         .ret (at_line 6 1)
            (some (.call (at_line 6 8) (.number ⟨at_line 6 8, .unresolved_number "0"⟩)
              [.number ⟨at_line 6 10, .unresolved_number "2"⟩]))])]

/-- The signature `g(x: int, y: missing) -> bool`: the type of `y` has no map entry. -/
def dangling_signature : expression :=
  .function_signature (at_line 1 1) "g"
    [.parameter (at_line 1 3) "x" ⟨at_line 1 6, .unresolved_type "int"⟩,
     .parameter (at_line 1 11) "y" ⟨at_line 1 14, .unresolved_type "missing"⟩]
    ⟨at_line 1 26, .unresolved_type "bool"⟩

/-- A unit with one function, of signature `dangling_signature` and an empty body. -/
def dangling_unit : statement :=
  .restricted_block (at_line 1 1)
    [.function_definition (at_line 1 1) dangling_signature (.block (at_line 2 1) [])]

/-- A unit with one function whose body declares `z: missing`, a type no map entry exists
for; the types of the signature are known. -/
def dangling_declaration_unit : statement :=
  .restricted_block (at_line 1 1)
    [.function_definition (at_line 1 1) example_signature
      (.block (at_line 2 1)
        [.variable_declaration (at_line 3 1) "z" ⟨at_line 3 8, .unresolved_type "missing"⟩
            (.number ⟨at_line 3 18, .unresolved_number "5"⟩)])]

/-- A unit with one function whose body is a while loop around a `return`. -/
def while_unit : statement :=
  .restricted_block (at_line 1 1)
    [.function_definition (at_line 1 1) example_signature
      (.block (at_line 2 1)
        [.while_loop (at_line 3 1) (.number ⟨at_line 3 7, .unresolved_number "1"⟩)
          (.block (at_line 3 9) [.ret (at_line 4 1) none])])]

/-- The signature `h(x: int, y: missing, z: absent) -> gone`: three of its four types have no
map entry. -/
def thrice_dangling_signature : expression :=
  .function_signature (at_line 1 1) "h"
    [.parameter (at_line 1 3) "x" ⟨at_line 1 6, .unresolved_type "int"⟩,
     .parameter (at_line 1 11) "y" ⟨at_line 1 14, .unresolved_type "missing"⟩,
     .parameter (at_line 1 23) "z" ⟨at_line 1 26, .unresolved_type "absent"⟩]
    ⟨at_line 1 37, .unresolved_type "gone"⟩

/-- A unit whose first statement is the alias `type T = nowhere` and whose second is a function
of signature `thrice_dangling_signature` with an empty body. -/
def thrice_dangling_unit : statement :=
  .restricted_block (at_line 1 1)
    [.alias_type_definition (at_line 0 1) "T" ⟨at_line 0 10, .unresolved_type "nowhere"⟩,
     .function_definition (at_line 1 1) thrice_dangling_signature (.block (at_line 2 1) [])]

/-- The declaration `z: int = 5`. -/
def declaration_z : statement :=
  .variable_declaration (at_line 3 1) "z" ⟨at_line 3 8, .unresolved_type "int"⟩
    (.number ⟨at_line 3 14, .unresolved_number "5"⟩)

/-- A unit with the aliases `type T = nowhere` and `type U = void` and a function whose types
are known and whose body declares `z: missing`: three names without a map entry, none of them
held by an expression node. -/
def unreached_dangling_unit : statement :=
  .restricted_block (at_line 1 1)
    [.alias_type_definition (at_line 1 1) "T" ⟨at_line 1 10, .unresolved_type "nowhere"⟩,
     .alias_type_definition (at_line 2 1) "U" ⟨at_line 2 10, .unresolved_type "void"⟩,
     .function_definition (at_line 3 1) example_signature
      (.block (at_line 4 1)
        [.variable_declaration (at_line 5 1) "z" ⟨at_line 5 8, .unresolved_type "missing"⟩
            (.number ⟨at_line 5 18, .unresolved_number "5"⟩)])]

/-! ## Theorems -/

section traversal
variable {σ ε : Type}

theorem outcome.next_of_error_none {α β : Type} (o : outcome α σ ε) (b : β)
    (f : σ → outcome β σ ε) (h : o.error = none) : o.next b f = f o.state := by
  simp [outcome.next, h]

theorem outcome.next_of_error_some {α β : Type} (o : outcome α σ ε) (b : β)
    (f : σ → outcome β σ ε) (e : ε) (h : o.error = some e) :
    o.next b f = ⟨b, o.state, [], some e⟩ := by
  simp [outcome.next, h]

theorem outcome.next_trace_sublist {α β : Type} (o : outcome α σ ε) (b : β)
    (f : σ → outcome β σ ε) (l : List seam.node) (h : ∀ st, (f st).trace.Sublist l) :
    (o.next b f).trace.Sublist l := by
  unfold outcome.next
  split
  · exact List.nil_sublist _
  · exact h _

theorem type_wrapper_visit_trace (vst : visitor σ ε) (w : type_wrapper) (st : σ) :
    (type_wrapper.visit vst w st).trace = [.type_wrapper w] := by
  unfold type_wrapper.visit; split <;> rfl

theorem number_wrapper_visit_trace (vst : visitor σ ε) (w : number_wrapper) (st : σ) :
    (number_wrapper.visit vst w st).trace = [.expression (.number w)] := by
  unfold number_wrapper.visit; split <;> rfl

/-! ### The flag a handler returns -/

theorem visit_list_map_statement (vst : visitor σ ε) :
    ∀ (body : List statement) (st : σ),
      (node.visit_list vst (body.map .statement) st).trace
          = (statement.visit_list vst body st).trace
        ∧ (node.visit_list vst (body.map .statement) st).state
          = (statement.visit_list vst body st).state
        ∧ (node.visit_list vst (body.map .statement) st).error
          = (statement.visit_list vst body st).error
  | [], st => by simp [node.visit_list, statement.visit_list]
  | s :: rest, st => by
    have ih := visit_list_map_statement vst rest
    simp only [List.map, node.visit_list, statement.visit_list, node.visit, outcome.next]
    cases h : (statement.visit vst s st).error <;> simp [ih]

theorem statement.nodes_list_eq_flatMap (slots : Bool) :
    ∀ body : List statement,
      statement.nodes_list slots body
        = (body.map node.statement).flatMap (node.nodes slots)
  | [] => by simp [statement.nodes_list]
  | s :: rest => by
    simp [statement.nodes_list, node.nodes, statement.nodes_list_eq_flatMap slots rest]

/-- The owned children of a statement are what stands directly below it in the pre-order
listing of its nodes: the listing is the statement followed by the listings of its owned
children, in order. -/
theorem statement.nodes_eq_owned_children (slots : Bool) (s : statement) :
    s.nodes slots
      = .statement s :: (s.owned_children slots).flatMap (node.nodes slots) := by
  cases s with
  | ret r value =>
    cases value <;> simp [statement.nodes, statement.owned_children, node.nodes]
  | if_stat r c m e =>
    cases e <;> simp [statement.nodes, statement.owned_children, node.nodes]
  | restricted_block r body =>
    simp [statement.nodes, statement.owned_children, statement.nodes_list_eq_flatMap]
  | block r body =>
    simp [statement.nodes, statement.owned_children, statement.nodes_list_eq_flatMap]
  | variable_declaration r name type value =>
    cases slots <;> simp [statement.nodes, statement.owned_children, node.nodes]
  | alias_type_definition r name target =>
    cases slots <;> simp [statement.nodes, statement.owned_children, node.nodes]
  | _ => simp [statement.nodes, statement.owned_children, node.nodes]

/-- C8 (counterexample): on the declaration `z: int = 5` the handler returns true, the
declaration owns two children, the type wrapper and the value, and `visit` goes on to the value
only: no handler is invoked on the type wrapper the declaration owns. -/
theorem statement.visit_skips_declaration_type :
    counting_visitor.visit_statement declaration_z 0 = .ok (true, 1)
      ∧ declaration_z.owned_children true
        = [.type_wrapper ⟨at_line 3 8, .unresolved_type "int"⟩,
            .expression (.number ⟨at_line 3 14, .unresolved_number "5"⟩)]
      ∧ (statement.visit counting_visitor declaration_z 0).trace
        = [.statement declaration_z,
            .expression (.number ⟨at_line 3 14, .unresolved_number "5"⟩)]
      ∧ (node.visit_list counting_visitor (declaration_z.owned_children true) 1).trace
        = [.type_wrapper ⟨at_line 3 8, .unresolved_type "int"⟩,
            .expression (.number ⟨at_line 3 14, .unresolved_number "5"⟩)]
      ∧ ¬ (statement.visit counting_visitor declaration_z 0).trace
          = .statement declaration_z
            :: (node.visit_list counting_visitor (declaration_z.owned_children true) 1).trace := by
  refine ⟨rfl, rfl, rfl, rfl, ?_⟩
  intro h
  have hlen := congrArg List.length h
  revert hlen
  decide

/-- C8 (amended): for every statement kind and every visitor, when the handler for the node
returns false the node's `visit` is that one handler invocation and nothing else (the node is
as it was, no handler runs on a descendant, nothing fails); when it returns true and the node is
not a while loop or a numerical for loop, `visit` goes on to call `visit`, one after the other
and from the state the handler left, on the children the node owns other than the type slot of
a variable declaration and the target of an alias type definition. -/
theorem statement.visit_handler_flag (vst : visitor σ ε) (s : statement) (st : σ) :
    (∀ st', vst.visit_statement s st = .ok (false, st') →
      statement.visit vst s st = ⟨s, st', [.statement s], none⟩)
    ∧ (∀ st', vst.visit_statement s st = .ok (true, st') → s.is_while_or_for = false →
      (statement.visit vst s st).trace
          = .statement s :: (node.visit_list vst (s.owned_children false) st').trace
        ∧ (statement.visit vst s st).state
          = (node.visit_list vst (s.owned_children false) st').state
        ∧ (statement.visit vst s st).error
          = (node.visit_list vst (s.owned_children false) st').error) := by
  constructor
  · intro st' h
    cases s with
    | ret r value => cases value <;> simp [statement.visit, handler_result, h]
    | if_stat r c m e => cases e <;> simp [statement.visit, handler_result, h]
    | _ => simp [statement.visit, handler_result, h]
  · intro st' h hk
    cases s with
    | ret r value =>
      cases value
      · simp [statement.visit, handler_result, h, statement.owned_children, node.visit_list]
      · simp only [statement.visit, handler_result, h, statement.owned_children,
          node.visit_list, node.visit, outcome.next]
        split <;> simp_all
    | if_stat r c m e =>
      cases e
      · simp only [statement.visit, handler_result, h, statement.owned_children,
          node.visit_list, node.visit, outcome.next]
        split <;> simp_all
        split <;> simp_all
      · simp only [statement.visit, handler_result, h, statement.owned_children,
          node.visit_list, node.visit, outcome.next]
        split <;> simp_all
        split <;> simp_all
        split <;> simp_all
    | restricted_block r body =>
      simp [statement.visit, handler_result, h, statement.owned_children,
        visit_list_map_statement]
    | block r body =>
      simp [statement.visit, handler_result, h, statement.owned_children,
        visit_list_map_statement]
    | alias_type_definition r n t =>
      simp [statement.visit, handler_result, h, statement.owned_children, node.visit_list]
    | numerical_for_loop r i f s b => simp [statement.is_while_or_for] at hk
    | while_loop r c b => simp [statement.is_while_or_for] at hk
    | function_definition r sig body =>
      simp only [statement.visit, handler_result, h, statement.owned_children,
        node.visit_list, node.visit, outcome.next]
      split <;> simp_all
      split <;> simp_all
    | variable_declaration r name type value =>
      simp only [statement.visit, handler_result, h, statement.owned_children,
        node.visit_list, node.visit, outcome.next, Bool.false_eq_true, if_false,
        List.nil_append]
      split <;> simp_all
    | _ =>
      simp only [statement.visit, handler_result, h, statement.owned_children,
        node.visit_list, node.visit, outcome.next]
      split <;> simp_all

/-! ### Pre-order -/

mutual
theorem expression_visit_trace_sublist (vst : visitor σ ε) :
    ∀ (e : expression) (st : σ), (expression.visit vst e st).trace.Sublist e.nodes
  | .number w, st => by
    simp [expression.visit, expression.nodes, number_wrapper_visit_trace]
  | .call r function arguments, st => by
    simp only [expression.visit, expression.nodes]
    split
    · exact List.Sublist.cons₂ _ (List.Sublist.append
        (expression_visit_trace_sublist vst function _)
        (outcome.next_trace_sublist _ _ _ _ (expression_visit_list_trace_sublist vst arguments)))
    · simp
  | .parameter r name type, st => by
    simp only [expression.visit, expression.nodes]
    split
    · simp [type_wrapper_visit_trace]
    · simp
  | .function_signature r name parameters return_type, st => by
    simp only [expression.visit, expression.nodes]
    split
    · refine List.Sublist.cons₂ _ (List.Sublist.append
        (expression_visit_list_trace_sublist vst parameters _)
        (outcome.next_trace_sublist _ _ _ _ ?_))
      intro st
      simp [type_wrapper_visit_trace]
    · simp
theorem expression_visit_list_trace_sublist (vst : visitor σ ε) :
    ∀ (es : List expression) (st : σ),
      (expression.visit_list vst es st).trace.Sublist (expression.nodes_list es)
  | [], st => by simp [expression.visit_list, expression.nodes_list]
  | e :: rest, st => by
    simp only [expression.visit_list, expression.nodes_list]
    exact List.Sublist.append (expression_visit_trace_sublist vst e _)
      (outcome.next_trace_sublist _ _ _ _ (expression_visit_list_trace_sublist vst rest))
end

mutual
theorem statement_visit_trace_sublist (vst : visitor σ ε) :
    ∀ (s : statement) (st : σ), (statement.visit vst s st).trace.Sublist (s.nodes true)
  | .restricted_block r body, st => by
    simp only [statement.visit, statement.nodes]
    split
    · exact List.Sublist.cons₂ _ (statement_visit_list_trace_sublist vst body _)
    · simp
  | .function_definition r signature body, st => by
    simp only [statement.visit, statement.nodes]
    split
    · exact List.Sublist.cons₂ _ (List.Sublist.append
        (expression_visit_trace_sublist vst signature _)
        (outcome.next_trace_sublist _ _ _ _ (statement_visit_trace_sublist vst body)))
    · simp
  | .block r body, st => by
    simp only [statement.visit, statement.nodes]
    split
    · exact List.Sublist.cons₂ _ (statement_visit_list_trace_sublist vst body _)
    · simp
  | .ret r none, st => by
    simp [statement.visit, statement.nodes]
  | .ret r (some value), st => by
    simp only [statement.visit, statement.nodes]
    split
    · exact List.Sublist.cons₂ _ (expression_visit_trace_sublist vst value _)
    · simp
  | .variable_declaration r name type value, st => by
    simp only [statement.visit, statement.nodes]
    split
    · exact List.Sublist.cons₂ _ (List.Sublist.trans
        (expression_visit_trace_sublist vst value _) (List.sublist_append_right _ _))
    · simp
  | .variable_assignment r name value, st => by
    simp only [statement.visit, statement.nodes]
    split
    · exact List.Sublist.cons₂ _ (expression_visit_trace_sublist vst value _)
    · simp
  | .if_stat r condition main_body none, st => by
    simp only [statement.visit, statement.nodes]
    split
    · exact List.Sublist.cons₂ _ (List.Sublist.append
        (expression_visit_trace_sublist vst condition _)
        (outcome.next_trace_sublist _ _ _ _ (statement_visit_trace_sublist vst main_body)))
    · simp
  | .if_stat r condition main_body (some else_body), st => by
    simp only [statement.visit, statement.nodes]
    split
    · exact List.Sublist.cons₂ _ (List.Sublist.append (List.Sublist.append
        (expression_visit_trace_sublist vst condition _)
        (outcome.next_trace_sublist _ _ _ _ (statement_visit_trace_sublist vst main_body)))
        (outcome.next_trace_sublist _ _ _ _ (statement_visit_trace_sublist vst else_body)))
    · simp
  | .loop r body, st => by
    simp only [statement.visit, statement.nodes]
    split
    · exact List.Sublist.cons₂ _ (statement_visit_trace_sublist vst body _)
    · simp
  | .numerical_for_loop r initial final step body, st => by
    simp only [statement.visit, statement.nodes]
    split
    · exact List.Sublist.cons₂ _ (List.Sublist.trans (List.Sublist.append (List.Sublist.append
        (expression_visit_trace_sublist vst initial _)
        (outcome.next_trace_sublist _ _ _ _ (expression_visit_trace_sublist vst final)))
        (outcome.next_trace_sublist _ _ _ _ (expression_visit_trace_sublist vst step)))
        (List.sublist_append_left _ _))
    · simp
  | .while_loop r condition body, st => by
    simp only [statement.visit, statement.nodes]
    split
    · exact List.Sublist.cons₂ _ (List.Sublist.trans
        (expression_visit_trace_sublist vst condition _) (List.sublist_append_left _ _))
    · simp
  | .alias_type_definition r name target, st => by
    simp [statement.visit, statement.nodes]
  | .class_type_definition r name body, st => by
    simp only [statement.visit, statement.nodes]
    split
    · exact List.Sublist.cons₂ _ (statement_visit_trace_sublist vst body _)
    · simp
theorem statement_visit_list_trace_sublist (vst : visitor σ ε) :
    ∀ (ss : List statement) (st : σ),
      (statement.visit_list vst ss st).trace.Sublist (statement.nodes_list true ss)
  | [], st => by simp [statement.visit_list, statement.nodes_list]
  | s :: rest, st => by
    simp only [statement.visit_list, statement.nodes_list]
    exact List.Sublist.append (statement_visit_trace_sublist vst s _)
      (outcome.next_trace_sublist _ _ _ _ (statement_visit_list_trace_sublist vst rest))
end

theorem statement.visit_trace_head (vst : visitor σ ε) (s : statement) (st : σ) :
    (statement.visit vst s st).trace.head? = some (.statement s) := by
  cases s with
  | ret r value =>
    cases value
    · simp [statement.visit]
    · simp only [statement.visit]; split <;> simp
  | if_stat r c m e => cases e <;> (simp only [statement.visit]; split <;> simp)
  | alias_type_definition r n t => simp [statement.visit]
  | _ => simp only [statement.visit]; split <;> simp

/-- C7: for every tree and every visitor, the handler invocations of `visit` on the root start
with the root itself and follow the pre-order of the tree: they are a subsequence of the
pre-order listing of its nodes, in which a node stands before its children and the whole subtree
of a child before the next sibling's (block bodies in sequence order; function definition:
signature, body; if: condition, main body, else body; numerical for: initial, final, step). -/
theorem statement.visit_preorder (vst : visitor σ ε) (s : statement) (st : σ) :
    ∃ rest, (statement.visit vst s st).trace = .statement s :: rest
      ∧ (node.statement s :: rest).Sublist (s.nodes true) := by
  have h := statement.visit_trace_head vst s st
  have hs := statement_visit_trace_sublist vst s st
  cases ht : (statement.visit vst s st).trace with
  | nil => simp [ht] at h
  | cons a rest =>
    simp only [ht, List.head?_cons, Option.some.injEq] at h
    subst h
    exact ⟨rest, rfl, ht ▸ hs⟩

/-! ### Abort on failure -/

theorem visitor.handle_all_append (vst : visitor σ ε) (a b : List node) (st : σ) :
    vst.handle_all (a ++ b) st
      = match vst.handle_all a st with
        | .ok st' => vst.handle_all b st'
        | .error e => .error e := by
  induction a generalizing st with
  | nil => simp [visitor.handle_all]
  | cons n rest ih =>
    simp only [List.cons_append, visitor.handle_all]
    cases vst.handle n st <;> simp [ih]

theorem aborts_at_failure_cons (vst : visitor σ ε) (n : node) (st s₁ s₂ : σ) (tr : List node)
    (err : Option ε) (hn : vst.handle n st = .ok s₁) (h : aborts_at_failure vst s₁ tr s₂ err) :
    aborts_at_failure vst st (n :: tr) s₂ err := by
  cases err with
  | none => simpa [aborts_at_failure, visitor.handle_all, hn] using h
  | some e =>
    obtain ⟨pre, m, rfl, hp, hm⟩ := h
    exact ⟨n :: pre, m, rfl, by simpa [visitor.handle_all, hn] using hp, hm⟩

theorem aborts_at_failure_next {α β : Type} (vst : visitor σ ε) (st : σ) (o : outcome α σ ε)
    (b : β) (f : σ → outcome β σ ε) (h : aborts_at_failure vst st o.trace o.state o.error)
    (hf : ∀ s, aborts_at_failure vst s (f s).trace (f s).state (f s).error) :
    aborts_at_failure vst st (o.trace ++ (o.next b f).trace) (o.next b f).state
      (o.next b f).error := by
  cases he : o.error with
  | some e =>
    rw [outcome.next_of_error_some o b f e he]
    simpa [he] using h
  | none =>
    rw [outcome.next_of_error_none o b f he]
    rw [he] at h
    have h2 := hf o.state
    cases he2 : (f o.state).error with
    | none =>
      rw [he2] at h2
      simp only [aborts_at_failure] at h h2 ⊢
      rw [visitor.handle_all_append, h]
      exact h2
    | some e =>
      rw [he2] at h2
      obtain ⟨pre, m, ht, hp, hm⟩ := h2
      refine ⟨o.trace ++ pre, m, by rw [ht, List.append_assoc], ?_, hm⟩
      simp only [aborts_at_failure] at h
      rw [visitor.handle_all_append, h]
      exact hp

theorem aborts_at_failure_threw (vst : visitor σ ε) (n : node) (st : σ) (e : ε)
    (h : vst.handle n st = .error e) : aborts_at_failure vst st [n] st (some e) :=
  ⟨[], n, rfl, rfl, h⟩

theorem aborts_at_failure_returned (vst : visitor σ ε) (n : node) (st st' : σ)
    (h : vst.handle n st = .ok st') : aborts_at_failure vst st [n] st' none := by
  simp [aborts_at_failure, visitor.handle_all, h]

theorem handler_result_cases (r : Except ε (Bool × σ)) (st : σ) :
    (∃ e, r = .error e ∧ handler_result r st = (false, st, some e))
      ∨ (∃ st', r = .ok (false, st') ∧ handler_result r st = (false, st', none))
      ∨ (∃ st', r = .ok (true, st') ∧ handler_result r st = (true, st', none)) := by
  rcases r with e | ⟨b, st'⟩
  · exact Or.inl ⟨e, rfl, rfl⟩
  · cases b
    · exact Or.inr (Or.inl ⟨st', rfl, rfl⟩)
    · exact Or.inr (Or.inr ⟨st', rfl, rfl⟩)

theorem type_wrapper_visit_aborts (vst : visitor σ ε) (w : type_wrapper) (st : σ) :
    aborts_at_failure vst st (type_wrapper.visit vst w st).trace
      (type_wrapper.visit vst w st).state (type_wrapper.visit vst w st).error := by
  unfold type_wrapper.visit
  split
  next b v st' h => exact aborts_at_failure_returned vst _ st st' (by simp [visitor.handle, h])
  next e h => exact aborts_at_failure_threw vst _ st e (by simp [visitor.handle, h])

theorem number_wrapper_visit_aborts (vst : visitor σ ε) (w : number_wrapper) (st : σ) :
    aborts_at_failure vst st (number_wrapper.visit vst w st).trace
      (number_wrapper.visit vst w st).state (number_wrapper.visit vst w st).error := by
  unfold number_wrapper.visit
  split
  next b v st' h => exact aborts_at_failure_returned vst _ st st' (by simp [visitor.handle, h])
  next e h => exact aborts_at_failure_threw vst _ st e (by simp [visitor.handle, h])

mutual
theorem expression_visit_aborts (vst : visitor σ ε) :
    ∀ (x : expression) (st : σ), aborts_at_failure vst st (expression.visit vst x st).trace
      (expression.visit vst x st).state (expression.visit vst x st).error
  | .number w, st => by
    simpa only [expression.visit] using number_wrapper_visit_aborts vst w st
  | .call r function arguments, st => by
    rcases handler_result_cases (vst.visit_expression (.call r function arguments) st) st
      with ⟨e, h, hr⟩ | ⟨st', h, hr⟩ | ⟨st', h, hr⟩
    · simp only [expression.visit, hr]
      exact aborts_at_failure_threw vst _ st e (by simp [visitor.handle, h])
    · simp only [expression.visit, hr]
      exact aborts_at_failure_returned vst _ st st' (by simp [visitor.handle, h])
    · simp only [expression.visit, hr]
      exact aborts_at_failure_cons vst _ st st' _ _ _ (by simp [visitor.handle, h])
        (aborts_at_failure_next vst st' _ _ _ (expression_visit_aborts vst function st')
          (expression_visit_list_aborts vst arguments))
  | .parameter r name type, st => by
    rcases handler_result_cases (vst.visit_expression (.parameter r name type) st) st
      with ⟨e, h, hr⟩ | ⟨st', h, hr⟩ | ⟨st', h, hr⟩
    · simp only [expression.visit, hr]
      exact aborts_at_failure_threw vst _ st e (by simp [visitor.handle, h])
    · simp only [expression.visit, hr]
      exact aborts_at_failure_returned vst _ st st' (by simp [visitor.handle, h])
    · simp only [expression.visit, hr]
      exact aborts_at_failure_cons vst _ st st' _ _ _ (by simp [visitor.handle, h])
        (type_wrapper_visit_aborts vst type st')
  | .function_signature r name parameters return_type, st => by
    rcases handler_result_cases
      (vst.visit_expression (.function_signature r name parameters return_type) st) st
      with ⟨e, h, hr⟩ | ⟨st', h, hr⟩ | ⟨st', h, hr⟩
    · simp only [expression.visit, hr]
      exact aborts_at_failure_threw vst _ st e (by simp [visitor.handle, h])
    · simp only [expression.visit, hr]
      exact aborts_at_failure_returned vst _ st st' (by simp [visitor.handle, h])
    · simp only [expression.visit, hr]
      exact aborts_at_failure_cons vst _ st st' _ _ _ (by simp [visitor.handle, h])
        (aborts_at_failure_next vst st' _ _ _ (expression_visit_list_aborts vst parameters st')
          (type_wrapper_visit_aborts vst return_type))
theorem expression_visit_list_aborts (vst : visitor σ ε) :
    ∀ (xs : List expression) (st : σ),
      aborts_at_failure vst st (expression.visit_list vst xs st).trace
        (expression.visit_list vst xs st).state (expression.visit_list vst xs st).error
  | [], st => by simp [expression.visit_list, aborts_at_failure, visitor.handle_all]
  | x :: rest, st => by
    simp only [expression.visit_list]
    exact aborts_at_failure_next vst st _ _ _ (expression_visit_aborts vst x st)
      (expression_visit_list_aborts vst rest)
end
mutual
theorem statement_visit_aborts (vst : visitor σ ε) :
    ∀ (s : statement) (st : σ), aborts_at_failure vst st (statement.visit vst s st).trace
      (statement.visit vst s st).state (statement.visit vst s st).error
  | .restricted_block r body, st => by
    rcases handler_result_cases (vst.visit_statement (.restricted_block r body) st) st
      with ⟨e, h, hr⟩ | ⟨st', h, hr⟩ | ⟨st', h, hr⟩
    · simp only [statement.visit, hr]
      exact aborts_at_failure_threw vst _ st e (by simp [visitor.handle, h])
    · simp only [statement.visit, hr]
      exact aborts_at_failure_returned vst _ st st' (by simp [visitor.handle, h])
    · simp only [statement.visit, hr]
      exact aborts_at_failure_cons vst _ st st' _ _ _ (by simp [visitor.handle, h])
        (statement_visit_list_aborts vst body st')
  | .function_definition r signature body, st => by
    rcases handler_result_cases (vst.visit_statement (.function_definition r signature body) st) st
      with ⟨e, h, hr⟩ | ⟨st', h, hr⟩ | ⟨st', h, hr⟩
    · simp only [statement.visit, hr]
      exact aborts_at_failure_threw vst _ st e (by simp [visitor.handle, h])
    · simp only [statement.visit, hr]
      exact aborts_at_failure_returned vst _ st st' (by simp [visitor.handle, h])
    · simp only [statement.visit, hr]
      exact aborts_at_failure_cons vst _ st st' _ _ _ (by simp [visitor.handle, h])
        (aborts_at_failure_next vst st' _ _ _ (expression_visit_aborts vst signature st')
          (statement_visit_aborts vst body))
  | .block r body, st => by
    rcases handler_result_cases (vst.visit_statement (.block r body) st) st
      with ⟨e, h, hr⟩ | ⟨st', h, hr⟩ | ⟨st', h, hr⟩
    · simp only [statement.visit, hr]
      exact aborts_at_failure_threw vst _ st e (by simp [visitor.handle, h])
    · simp only [statement.visit, hr]
      exact aborts_at_failure_returned vst _ st st' (by simp [visitor.handle, h])
    · simp only [statement.visit, hr]
      exact aborts_at_failure_cons vst _ st st' _ _ _ (by simp [visitor.handle, h])
        (statement_visit_list_aborts vst body st')
  | .ret r none, st => by
    rcases handler_result_cases (vst.visit_statement (.ret r none) st) st
      with ⟨e, h, hr⟩ | ⟨st', h, hr⟩ | ⟨st', h, hr⟩
    · simp only [statement.visit, hr]
      exact aborts_at_failure_threw vst _ st e (by simp [visitor.handle, h])
    · simp only [statement.visit, hr]
      exact aborts_at_failure_returned vst _ st st' (by simp [visitor.handle, h])
    · simp only [statement.visit, hr]
      exact aborts_at_failure_returned vst _ st st' (by simp [visitor.handle, h])
  | .ret r (some value), st => by
    rcases handler_result_cases (vst.visit_statement (.ret r (some value)) st) st
      with ⟨e, h, hr⟩ | ⟨st', h, hr⟩ | ⟨st', h, hr⟩
    · simp only [statement.visit, hr]
      exact aborts_at_failure_threw vst _ st e (by simp [visitor.handle, h])
    · simp only [statement.visit, hr]
      exact aborts_at_failure_returned vst _ st st' (by simp [visitor.handle, h])
    · simp only [statement.visit, hr]
      exact aborts_at_failure_cons vst _ st st' _ _ _ (by simp [visitor.handle, h])
        (expression_visit_aborts vst value st')
  | .variable_declaration r name type value, st => by
    rcases handler_result_cases (vst.visit_statement (.variable_declaration r name type value) st) st
      with ⟨e, h, hr⟩ | ⟨st', h, hr⟩ | ⟨st', h, hr⟩
    · simp only [statement.visit, hr]
      exact aborts_at_failure_threw vst _ st e (by simp [visitor.handle, h])
    · simp only [statement.visit, hr]
      exact aborts_at_failure_returned vst _ st st' (by simp [visitor.handle, h])
    · simp only [statement.visit, hr]
      exact aborts_at_failure_cons vst _ st st' _ _ _ (by simp [visitor.handle, h])
        (expression_visit_aborts vst value st')
  | .variable_assignment r name value, st => by
    rcases handler_result_cases (vst.visit_statement (.variable_assignment r name value) st) st
      with ⟨e, h, hr⟩ | ⟨st', h, hr⟩ | ⟨st', h, hr⟩
    · simp only [statement.visit, hr]
      exact aborts_at_failure_threw vst _ st e (by simp [visitor.handle, h])
    · simp only [statement.visit, hr]
      exact aborts_at_failure_returned vst _ st st' (by simp [visitor.handle, h])
    · simp only [statement.visit, hr]
      exact aborts_at_failure_cons vst _ st st' _ _ _ (by simp [visitor.handle, h])
        (expression_visit_aborts vst value st')
  | .if_stat r condition main_body none, st => by
    rcases handler_result_cases (vst.visit_statement (.if_stat r condition main_body none) st) st
      with ⟨e, h, hr⟩ | ⟨st', h, hr⟩ | ⟨st', h, hr⟩
    · simp only [statement.visit, hr]
      exact aborts_at_failure_threw vst _ st e (by simp [visitor.handle, h])
    · simp only [statement.visit, hr]
      exact aborts_at_failure_returned vst _ st st' (by simp [visitor.handle, h])
    · simp only [statement.visit, hr]
      exact aborts_at_failure_cons vst _ st st' _ _ _ (by simp [visitor.handle, h])
        (aborts_at_failure_next vst st' _ _ _ (expression_visit_aborts vst condition st')
          (statement_visit_aborts vst main_body))
  | .if_stat r condition main_body (some else_body), st => by
    rcases handler_result_cases (vst.visit_statement (.if_stat r condition main_body (some else_body)) st) st
      with ⟨e, h, hr⟩ | ⟨st', h, hr⟩ | ⟨st', h, hr⟩
    · simp only [statement.visit, hr]
      exact aborts_at_failure_threw vst _ st e (by simp [visitor.handle, h])
    · simp only [statement.visit, hr]
      exact aborts_at_failure_returned vst _ st st' (by simp [visitor.handle, h])
    · simp only [statement.visit, hr]
      have h₁ := aborts_at_failure_next vst st' _ main_body _ (expression_visit_aborts vst condition st')
        (statement_visit_aborts vst main_body)
      exact aborts_at_failure_cons vst _ st st' _ _ _ (by simp [visitor.handle, h])
        (aborts_at_failure_next vst st' (outcome.mk () _ _ _) else_body _ h₁ (statement_visit_aborts vst else_body))
  | .loop r body, st => by
    rcases handler_result_cases (vst.visit_statement (.loop r body) st) st
      with ⟨e, h, hr⟩ | ⟨st', h, hr⟩ | ⟨st', h, hr⟩
    · simp only [statement.visit, hr]
      exact aborts_at_failure_threw vst _ st e (by simp [visitor.handle, h])
    · simp only [statement.visit, hr]
      exact aborts_at_failure_returned vst _ st st' (by simp [visitor.handle, h])
    · simp only [statement.visit, hr]
      exact aborts_at_failure_cons vst _ st st' _ _ _ (by simp [visitor.handle, h])
        (statement_visit_aborts vst body st')
  | .numerical_for_loop r initial final step body, st => by
    rcases handler_result_cases (vst.visit_statement (.numerical_for_loop r initial final step body) st) st
      with ⟨e, h, hr⟩ | ⟨st', h, hr⟩ | ⟨st', h, hr⟩
    · simp only [statement.visit, hr]
      exact aborts_at_failure_threw vst _ st e (by simp [visitor.handle, h])
    · simp only [statement.visit, hr]
      exact aborts_at_failure_returned vst _ st st' (by simp [visitor.handle, h])
    · simp only [statement.visit, hr]
      have h₁ := aborts_at_failure_next vst st' _ final _ (expression_visit_aborts vst initial st')
        (expression_visit_aborts vst final)
      exact aborts_at_failure_cons vst _ st st' _ _ _ (by simp [visitor.handle, h])
        (aborts_at_failure_next vst st' (outcome.mk () _ _ _) step _ h₁ (expression_visit_aborts vst step))
  | .while_loop r condition body, st => by
    rcases handler_result_cases (vst.visit_statement (.while_loop r condition body) st) st
      with ⟨e, h, hr⟩ | ⟨st', h, hr⟩ | ⟨st', h, hr⟩
    · simp only [statement.visit, hr]
      exact aborts_at_failure_threw vst _ st e (by simp [visitor.handle, h])
    · simp only [statement.visit, hr]
      exact aborts_at_failure_returned vst _ st st' (by simp [visitor.handle, h])
    · simp only [statement.visit, hr]
      exact aborts_at_failure_cons vst _ st st' _ _ _ (by simp [visitor.handle, h])
        (expression_visit_aborts vst condition st')
  | .alias_type_definition r name target, st => by
    rcases handler_result_cases (vst.visit_statement (.alias_type_definition r name target) st) st
      with ⟨e, h, hr⟩ | ⟨st', h, hr⟩ | ⟨st', h, hr⟩
    · simp only [statement.visit, hr]
      exact aborts_at_failure_threw vst _ st e (by simp [visitor.handle, h])
    · simp only [statement.visit, hr]
      exact aborts_at_failure_returned vst _ st st' (by simp [visitor.handle, h])
    · simp only [statement.visit, hr]
      exact aborts_at_failure_returned vst _ st st' (by simp [visitor.handle, h])
  | .class_type_definition r name body, st => by
    rcases handler_result_cases (vst.visit_statement (.class_type_definition r name body) st) st
      with ⟨e, h, hr⟩ | ⟨st', h, hr⟩ | ⟨st', h, hr⟩
    · simp only [statement.visit, hr]
      exact aborts_at_failure_threw vst _ st e (by simp [visitor.handle, h])
    · simp only [statement.visit, hr]
      exact aborts_at_failure_returned vst _ st st' (by simp [visitor.handle, h])
    · simp only [statement.visit, hr]
      exact aborts_at_failure_cons vst _ st st' _ _ _ (by simp [visitor.handle, h])
        (statement_visit_aborts vst body st')
theorem statement_visit_list_aborts (vst : visitor σ ε) :
    ∀ (ss : List statement) (st : σ),
      aborts_at_failure vst st (statement.visit_list vst ss st).trace
        (statement.visit_list vst ss st).state (statement.visit_list vst ss st).error
  | [], st => by simp [statement.visit_list, aborts_at_failure, visitor.handle_all]
  | s :: rest, st => by
    simp only [statement.visit_list]
    exact aborts_at_failure_next vst st _ _ _ (statement_visit_aborts vst s st)
      (statement_visit_list_aborts vst rest)
end

/-- C10: for every tree and visitor, `visit` on the root fails exactly when an invoked handler
fails. If nothing is in flight at the end, every invoked handler returned; if the exception `e`
is, every handler invoked before the last returned and the last one threw that same `e`, so that
no handler ran after the failure. -/
theorem statement.visit_abort_on_failure (vst : visitor σ ε) (s : statement) (st : σ) :
    ((statement.visit vst s st).error = none →
        vst.handle_all (statement.visit vst s st).trace st = .ok (statement.visit vst s st).state)
      ∧ (∀ e, (statement.visit vst s st).error = some e →
        ∃ pre n, (statement.visit vst s st).trace = pre ++ [n]
          ∧ vst.handle_all pre st = .ok (statement.visit vst s st).state
          ∧ vst.handle n (statement.visit vst s st).state = .error e) := by
  have h := statement_visit_aborts vst s st
  constructor
  · intro he
    rw [he] at h
    exact h
  · intro e he
    rw [he] at h
    exact h

/-! ### Completeness -/

theorem type_wrapper_visit_error_of_ok (vst : visitor σ ε) (w : type_wrapper) (st : σ)
    (h : ∃ b v st', vst.visit_type_wrapper w st = .ok (b, v, st')) :
    (type_wrapper.visit vst w st).error = none := by
  obtain ⟨b, v, st', h⟩ := h
  simp [type_wrapper.visit, h]

theorem number_wrapper_visit_error_of_ok (vst : visitor σ ε) (w : number_wrapper) (st : σ)
    (h : ∃ b v st', vst.visit_number_wrapper w st = .ok (b, v, st')) :
    (number_wrapper.visit vst w st).error = none := by
  obtain ⟨b, v, st', h⟩ := h
  simp [number_wrapper.visit, h]

mutual
theorem expression_visit_complete (vst : visitor σ ε)
    (he : ∀ x st, ∃ st', vst.visit_expression x st = .ok (true, st'))
    (hn : ∀ w st, ∃ v st', vst.visit_number_wrapper w st = .ok (true, v, st'))
    (ht : ∀ w st, ∃ v st', vst.visit_type_wrapper w st = .ok (true, v, st')) :
    ∀ (x : expression) (st : σ),
      (expression.visit vst x st).trace = x.nodes ∧ (expression.visit vst x st).error = none
  | .number w, st => by
    simp only [expression.visit, expression.nodes, number_wrapper_visit_trace, true_and]
    exact number_wrapper_visit_error_of_ok vst w st ⟨true, hn w st⟩
  | .call r function arguments, st => by
    obtain ⟨st', h⟩ := he (.call r function arguments) st
    have h₁ := expression_visit_complete vst he hn ht function st'
    have h₂ := expression_visit_list_complete vst he hn ht arguments
      (expression.visit vst function st').state
    simp only [expression.visit, handler_result, h, expression.nodes,
      outcome.next_of_error_none _ _ _ h₁.2, h₁.1, h₂.1, h₂.2, and_self]
  | .parameter r name type, st => by
    obtain ⟨st', h⟩ := he (.parameter r name type) st
    simp only [expression.visit, handler_result, h, expression.nodes,
      type_wrapper_visit_trace, true_and]
    exact type_wrapper_visit_error_of_ok vst type st' ⟨true, ht type st'⟩
  | .function_signature r name parameters return_type, st => by
    obtain ⟨st', h⟩ := he (.function_signature r name parameters return_type) st
    have h₁ := expression_visit_list_complete vst he hn ht parameters st'
    simp only [expression.visit, handler_result, h, expression.nodes,
      outcome.next_of_error_none _ _ _ h₁.2, h₁.1, type_wrapper_visit_trace, true_and]
    exact type_wrapper_visit_error_of_ok vst return_type _ ⟨true, ht return_type _⟩
theorem expression_visit_list_complete (vst : visitor σ ε)
    (he : ∀ x st, ∃ st', vst.visit_expression x st = .ok (true, st'))
    (hn : ∀ w st, ∃ v st', vst.visit_number_wrapper w st = .ok (true, v, st'))
    (ht : ∀ w st, ∃ v st', vst.visit_type_wrapper w st = .ok (true, v, st')) :
    ∀ (xs : List expression) (st : σ),
      (expression.visit_list vst xs st).trace = expression.nodes_list xs
        ∧ (expression.visit_list vst xs st).error = none
  | [], st => by simp [expression.visit_list, expression.nodes_list]
  | x :: rest, st => by
    have h₁ := expression_visit_complete vst he hn ht x st
    have h₂ := expression_visit_list_complete vst he hn ht rest (expression.visit vst x st).state
    simp only [expression.visit_list, expression.nodes_list,
      outcome.next_of_error_none _ _ _ h₁.2, h₁.1, h₂.1, h₂.2, and_self]
end
mutual
theorem statement_visit_complete (vst : visitor σ ε)
    (hs : ∀ s st, ∃ st', vst.visit_statement s st = .ok (true, st'))
    (he : ∀ x st, ∃ st', vst.visit_expression x st = .ok (true, st'))
    (hn : ∀ w st, ∃ v st', vst.visit_number_wrapper w st = .ok (true, v, st'))
    (ht : ∀ w st, ∃ v st', vst.visit_type_wrapper w st = .ok (true, v, st')) :
    ∀ (s : statement) (st : σ), s.no_while_for = true →
      (statement.visit vst s st).trace = s.nodes false ∧ (statement.visit vst s st).error = none
  | .restricted_block r body, st, hl => by
    obtain ⟨st', h⟩ := hs (.restricted_block r body) st
    have h₁ := statement_visit_list_complete vst hs he hn ht body st'
      (by simpa [statement.no_while_for] using hl)
    simp only [statement.visit, handler_result, h, statement.nodes, h₁.1, h₁.2, and_self]
  | .function_definition r signature body, st, hl => by
    obtain ⟨st', h⟩ := hs (.function_definition r signature body) st
    have h₁ := expression_visit_complete vst he hn ht signature st'
    have h₂ := statement_visit_complete vst hs he hn ht body
      (expression.visit vst signature st').state (by simpa [statement.no_while_for] using hl)
    simp only [statement.visit, handler_result, h, statement.nodes,
      outcome.next_of_error_none _ _ _ h₁.2, h₁.1, h₂.1, h₂.2, and_self]
  | .block r body, st, hl => by
    obtain ⟨st', h⟩ := hs (.block r body) st
    have h₁ := statement_visit_list_complete vst hs he hn ht body st'
      (by simpa [statement.no_while_for] using hl)
    simp only [statement.visit, handler_result, h, statement.nodes, h₁.1, h₁.2, and_self]
  | .ret r none, st, _ => by
    obtain ⟨st', h⟩ := hs (.ret r none) st
    simp only [statement.visit, handler_result, h, statement.nodes, and_self]
  | .ret r (some value), st, _ => by
    obtain ⟨st', h⟩ := hs (.ret r (some value)) st
    have h₁ := expression_visit_complete vst he hn ht value st'
    simp only [statement.visit, handler_result, h, statement.nodes, h₁.1, h₁.2, and_self]
  | .variable_declaration r name type value, st, _ => by
    obtain ⟨st', h⟩ := hs (.variable_declaration r name type value) st
    have h₁ := expression_visit_complete vst he hn ht value st'
    simp [statement.visit, handler_result, h, statement.nodes, h₁.1, h₁.2]
  | .variable_assignment r name value, st, _ => by
    obtain ⟨st', h⟩ := hs (.variable_assignment r name value) st
    have h₁ := expression_visit_complete vst he hn ht value st'
    simp only [statement.visit, handler_result, h, statement.nodes, h₁.1, h₁.2, and_self]
  | .if_stat r condition main_body none, st, hl => by
    obtain ⟨st', h⟩ := hs (.if_stat r condition main_body none) st
    have h₁ := expression_visit_complete vst he hn ht condition st'
    have h₂ := statement_visit_complete vst hs he hn ht main_body
      (expression.visit vst condition st').state (by simpa [statement.no_while_for] using hl)
    simp only [statement.visit, handler_result, h, statement.nodes,
      outcome.next_of_error_none _ _ _ h₁.2, h₁.1, h₂.1, h₂.2, and_self]
  | .if_stat r condition main_body (some else_body), st, hl => by
    obtain ⟨st', h⟩ := hs (.if_stat r condition main_body (some else_body)) st
    have hl' : main_body.no_while_for = true ∧ else_body.no_while_for = true := by
      simpa [statement.no_while_for] using hl
    have h₁ := expression_visit_complete vst he hn ht condition st'
    have h₂ := statement_visit_complete vst hs he hn ht main_body
      (expression.visit vst condition st').state hl'.1
    have h₃ := statement_visit_complete vst hs he hn ht else_body
      (statement.visit vst main_body (expression.visit vst condition st').state).state hl'.2
    simp only [statement.visit, handler_result, h, statement.nodes,
      outcome.next_of_error_none _ _ _ h₁.2, outcome.next_of_error_none _ _ _ h₂.2,
      h₁.1, h₂.1, h₃.1, h₃.2, and_self]
  | .loop r body, st, hl => by
    obtain ⟨st', h⟩ := hs (.loop r body) st
    have h₁ := statement_visit_complete vst hs he hn ht body st'
      (by simpa [statement.no_while_for] using hl)
    simp only [statement.visit, handler_result, h, statement.nodes, h₁.1, h₁.2, and_self]
  | .numerical_for_loop r initial final step body, st, hl => by
    simp [statement.no_while_for] at hl
  | .while_loop r condition body, st, hl => by
    simp [statement.no_while_for] at hl
  | .alias_type_definition r name target, st, _ => by
    obtain ⟨st', h⟩ := hs (.alias_type_definition r name target) st
    simp [statement.visit, handler_result, h, statement.nodes]
  | .class_type_definition r name body, st, hl => by
    obtain ⟨st', h⟩ := hs (.class_type_definition r name body) st
    have h₁ := statement_visit_complete vst hs he hn ht body st'
      (by simpa [statement.no_while_for] using hl)
    simp only [statement.visit, handler_result, h, statement.nodes, h₁.1, h₁.2, and_self]
theorem statement_visit_list_complete (vst : visitor σ ε)
    (hs : ∀ s st, ∃ st', vst.visit_statement s st = .ok (true, st'))
    (he : ∀ x st, ∃ st', vst.visit_expression x st = .ok (true, st'))
    (hn : ∀ w st, ∃ v st', vst.visit_number_wrapper w st = .ok (true, v, st'))
    (ht : ∀ w st, ∃ v st', vst.visit_type_wrapper w st = .ok (true, v, st')) :
    ∀ (ss : List statement) (st : σ), statement.no_while_for_list ss = true →
      (statement.visit_list vst ss st).trace = statement.nodes_list false ss
        ∧ (statement.visit_list vst ss st).error = none
  | [], st, _ => by simp [statement.visit_list, statement.nodes_list]
  | s :: rest, st, hl => by
    have hl' : s.no_while_for = true ∧ statement.no_while_for_list rest = true := by
      simpa [statement.no_while_for_list] using hl
    have h₁ := statement_visit_complete vst hs he hn ht s st hl'.1
    have h₂ := statement_visit_list_complete vst hs he hn ht rest
      (statement.visit vst s st).state hl'.2
    simp only [statement.visit_list, statement.nodes_list,
      outcome.next_of_error_none _ _ _ h₁.2, h₁.1, h₂.1, h₂.2, and_self]
end
/-- C6 (amended): for every tree that has no while loop and no numerical for loop, `visit` on the
root with a visitor whose every handler returns true invokes a handler exactly once, in
pre-order, on every node of the tree other than the type slot of a variable declaration and the
target of an alias type definition, and does not fail. -/
theorem statement.visit_every_node_once (vst : visitor σ ε)
    (hs : ∀ s st, ∃ st', vst.visit_statement s st = .ok (true, st'))
    (he : ∀ x st, ∃ st', vst.visit_expression x st = .ok (true, st'))
    (hn : ∀ w st, ∃ v st', vst.visit_number_wrapper w st = .ok (true, v, st'))
    (ht : ∀ w st, ∃ v st', vst.visit_type_wrapper w st = .ok (true, v, st'))
    (s : statement) (st : σ) (hl : s.no_while_for = true) :
    (statement.visit vst s st).trace = s.nodes false
      ∧ (statement.visit vst s st).error = none :=
  statement_visit_complete vst hs he hn ht s st hl

/-- C6 (counterexample): `visit` on the unit `type T = int` with a visitor whose every handler
returns true invokes two handlers, on the block and on the alias definition; the tree has a
third node, the wrapper the alias definition owns, on which no handler is invoked. -/
theorem statement.visit_skips_alias_target :
    (statement.visit counting_visitor alias_unit 0).trace
        = [.statement alias_unit,
            .statement (.alias_type_definition (at_line 1 1) "T"
              ⟨at_line 1 10, .unresolved_type "int"⟩)]
      ∧ alias_unit.nodes true
        = [.statement alias_unit,
            .statement (.alias_type_definition (at_line 1 1) "T"
              ⟨at_line 1 10, .unresolved_type "int"⟩),
            .type_wrapper ⟨at_line 1 10, .unresolved_type "int"⟩]
      ∧ ¬ (statement.visit counting_visitor alias_unit 0).trace.Perm (alias_unit.nodes true) := by
  refine ⟨rfl, rfl, ?_⟩
  intro h
  have hlen := h.length_eq
  revert hlen
  decide

theorem statement.visit_every_node_once_witness :
    function_unit.no_while_for = true
      ∧ (statement.visit counting_visitor function_unit 0).trace = function_unit.nodes false
      ∧ (statement.visit counting_visitor function_unit 0).error = none
      ∧ (statement.visit counting_visitor function_unit 0).state
          = (function_unit.nodes false).length :=
  ⟨rfl,
    (statement.visit_every_node_once counting_visitor (fun _ _ => ⟨_, rfl⟩)
      (fun _ _ => ⟨_, rfl⟩) (fun _ _ => ⟨_, _, rfl⟩) (fun _ _ => ⟨_, _, rfl⟩)
      function_unit 0 rfl).1,
    (statement.visit_every_node_once counting_visitor (fun _ _ => ⟨_, rfl⟩)
      (fun _ _ => ⟨_, rfl⟩) (fun _ _ => ⟨_, _, rfl⟩) (fun _ _ => ⟨_, _, rfl⟩)
      function_unit 0 rfl).2,
    rfl⟩

/-- Why the completeness theorem leaves trees with while and numerical for loops aside:
`while_loop::visit` visits the condition and not the body, so in `while_unit` the block of the
loop and the `return` in it get no handler, with every handler returning true. -/
theorem statement.visit_skips_while_body :
    (statement.visit counting_visitor while_unit 0).trace.length = 11
      ∧ (while_unit.nodes false).length = 13
      ∧ (statement.visit counting_visitor while_unit 0).error = none := by
  decide

/-! ### Optional children -/

/-- C16: for every visitor, `visit` on a return without a value invokes the return's handler
and nothing else, whatever the handler answers; `visit` on an if without an else body, when the
handler says continue, visits the condition and then the main body and stops; with the optional
child present it is visited after the others (the value of a return after the return's handler,
the else body after condition and main body). `visit` is a total function, so no case is left
in which an absent child would be looked at. -/
theorem statement.visit_optional_children (vst : visitor σ ε) (r : range) (st : σ) :
    (statement.visit vst (.ret r none) st).trace = [.statement (.ret r none)]
      ∧ (statement.visit vst (.ret r none) st).node = .ret r none
      ∧ (∀ value st', vst.visit_statement (.ret r (some value)) st = .ok (true, st') →
          (statement.visit vst (.ret r (some value)) st).trace
            = .statement (.ret r (some value)) :: (expression.visit vst value st').trace)
      ∧ (∀ condition main_body st',
          vst.visit_statement (.if_stat r condition main_body none) st = .ok (true, st') →
          (statement.visit vst (.if_stat r condition main_body none) st).trace
            = .statement (.if_stat r condition main_body none)
              :: ((expression.visit vst condition st').trace
                ++ ((expression.visit vst condition st').next main_body
                    (statement.visit vst main_body)).trace))
      ∧ (∀ condition main_body else_body st',
          vst.visit_statement (.if_stat r condition main_body (some else_body)) st
            = .ok (true, st') →
          (statement.visit vst (.if_stat r condition main_body (some else_body)) st).trace
            = .statement (.if_stat r condition main_body (some else_body))
              :: ((expression.visit vst condition st').trace
                ++ ((expression.visit vst condition st').next main_body
                    (statement.visit vst main_body)).trace
                ++ (((expression.visit vst condition st').next main_body
                    (statement.visit vst main_body)).next else_body
                    (statement.visit vst else_body)).trace)) := by
  refine ⟨?_, ?_, ?_, ?_, ?_⟩
  · simp only [statement.visit]
  · simp only [statement.visit]
  · intro value st' h
    simp only [statement.visit, handler_result, h]
  · intro condition main_body st' h
    simp only [statement.visit, handler_result, h]
  · intro condition main_body else_body st' h
    simp only [statement.visit, handler_result, h]

end traversal

section resolution

theorem resolver_handler_result (m : type_map) (s : statement) (st : List seam.number) :
    handler_result ((resolver m).visit_statement s st) st = (true, st, none) := rfl

theorem resolver_handler_result_expression (m : type_map) (x : expression) (st : List seam.number) :
    handler_result ((resolver m).visit_expression x st) st = (true, st, none) := rfl

theorem resolver_visit_type_wrapper (m : type_map) (w : type_wrapper) (st : List seam.number) :
    (resolver m).visit_type_wrapper w st
      = match resolve_slot m w with
        | .ok v => .ok (false, v, st)
        | .error e => .error e := by
  unfold resolve_slot resolver
  simp only
  cases w.value with
  | unresolved_type name => cases hm : m name <;> simp [hm]
  | resolved object => simp

theorem type_wrapper.visit_resolver (m : type_map) (w : type_wrapper) (st : List seam.number) :
    type_wrapper.visit (resolver m) w st
      = match resolve_slot m w with
        | .ok v => ⟨{ w with value := v }, st, [.type_wrapper w], none⟩
        | .error e => ⟨w, st, [.type_wrapper w], some e⟩ := by
  unfold type_wrapper.visit
  rw [resolver_visit_type_wrapper]
  cases resolve_slot m w <;> rfl

theorem resolve_all_append (m : type_map) (a b : List type_wrapper) :
    resolve_all m (a ++ b)
      = match (resolve_all m a).2 with
        | none => ((resolve_all m a).1 ++ (resolve_all m b).1, (resolve_all m b).2)
        | some e => ((resolve_all m a).1 ++ b, some e) := by
  induction a with
  | nil => simp [resolve_all]
  | cons w rest ih =>
    simp only [List.cons_append, resolve_all]
    cases hw : resolve_slot m w with
    | error e => simp
    | ok v =>
      cases h2 : (resolve_all m rest).2 <;> simp [ih, h2]

theorem resolve_all_next {α β : Type} (m : type_map) (o : outcome α (List seam.number) failure)
    (b : β) (f : List seam.number → outcome β (List seam.number) failure)
    (L₁ A₁ : List type_wrapper) (W₂ : β → List type_wrapper)
    (h₁ : resolve_all m L₁ = (A₁, o.error))
    (h₂ : ∀ st, resolve_all m (W₂ b) = (W₂ (f st).node, (f st).error)) :
    resolve_all m (L₁ ++ W₂ b) = (A₁ ++ W₂ (o.next b f).node, (o.next b f).error) := by
  rw [resolve_all_append, h₁]
  cases he : o.error with
  | none => simp [outcome.next_of_error_none o b f he, h₂ o.state]
  | some e => simp [outcome.next_of_error_some o b f e he]

theorem type_wrapper_visit_resolve_all (m : type_map) (w : type_wrapper) (st : List seam.number) :
    resolve_all m [w]
      = ([(type_wrapper.visit (resolver m) w st).node],
          (type_wrapper.visit (resolver m) w st).error) := by
  rw [type_wrapper.visit_resolver]
  simp only [resolve_all]
  cases resolve_slot m w <;> rfl

mutual
theorem expression_visit_resolve_all (m : type_map) :
    ∀ (x : expression) (st : List seam.number),
      resolve_all m x.type_wrappers
        = ((expression.visit (resolver m) x st).node.type_wrappers,
            (expression.visit (resolver m) x st).error)
  | .number w, st => by
    simp [expression.visit, expression.type_wrappers, resolve_all, number_wrapper.visit,
      resolver]
  | .call r function arguments, st => by
    simp only [expression.visit, resolver_handler_result_expression, expression.type_wrappers]
    exact resolve_all_next m _ _ _ _ _ expression.type_wrappers_list
      (expression_visit_resolve_all m function st)
      (expression_visit_list_resolve_all m arguments)
  | .parameter r name type, st => by
    simp only [expression.visit, resolver_handler_result_expression, expression.type_wrappers]
    exact type_wrapper_visit_resolve_all m type st
  | .function_signature r name parameters return_type, st => by
    simp only [expression.visit, resolver_handler_result_expression, expression.type_wrappers]
    exact resolve_all_next m _ _ _ _ _ (fun w => [w])
      (expression_visit_list_resolve_all m parameters st)
      (type_wrapper_visit_resolve_all m return_type)
theorem expression_visit_list_resolve_all (m : type_map) :
    ∀ (xs : List expression) (st : List seam.number),
      resolve_all m (expression.type_wrappers_list xs)
        = (expression.type_wrappers_list (expression.visit_list (resolver m) xs st).node,
            (expression.visit_list (resolver m) xs st).error)
  | [], st => by simp [expression.visit_list, expression.type_wrappers_list, resolve_all]
  | x :: rest, st => by
    simp only [expression.visit_list, expression.type_wrappers_list]
    exact resolve_all_next m _ _ _ _ _ expression.type_wrappers_list
      (expression_visit_resolve_all m x st)
      (expression_visit_list_resolve_all m rest)
end

mutual
theorem statement_visit_resolve_all (m : type_map) :
    ∀ (s : statement) (st : List seam.number), s.no_while_for = true →
      resolve_all m (s.type_wrappers false)
        = ((statement.visit (resolver m) s st).node.type_wrappers false,
            (statement.visit (resolver m) s st).error)
  | .restricted_block r body, st, hl => by
    simp only [statement.visit, resolver_handler_result, statement.type_wrappers]
    exact statement_visit_list_resolve_all m body st (by simpa [statement.no_while_for] using hl)
  | .function_definition r signature body, st, hl => by
    simp only [statement.visit, resolver_handler_result, statement.type_wrappers]
    exact resolve_all_next m _ _ _ _ _ (statement.type_wrappers false)
      (expression_visit_resolve_all m signature st)
      (fun st' => statement_visit_resolve_all m body st'
        (by simpa [statement.no_while_for] using hl))
  | .block r body, st, hl => by
    simp only [statement.visit, resolver_handler_result, statement.type_wrappers]
    exact statement_visit_list_resolve_all m body st (by simpa [statement.no_while_for] using hl)
  | .ret r none, st, _ => by
    simp [statement.visit, resolver_handler_result, statement.type_wrappers, resolve_all]
  | .ret r (some value), st, _ => by
    simp only [statement.visit, resolver_handler_result, statement.type_wrappers]
    exact expression_visit_resolve_all m value st
  | .variable_declaration r name type value, st, _ => by
    simp only [statement.visit, resolver_handler_result, statement.type_wrappers,
      Bool.false_eq_true, if_false, List.nil_append]
    exact expression_visit_resolve_all m value st
  | .variable_assignment r name value, st, _ => by
    simp only [statement.visit, resolver_handler_result, statement.type_wrappers]
    exact expression_visit_resolve_all m value st
  | .if_stat r condition main_body none, st, hl => by
    simp only [statement.visit, resolver_handler_result, statement.type_wrappers]
    exact resolve_all_next m _ _ _ _ _ (statement.type_wrappers false)
      (expression_visit_resolve_all m condition st)
      (fun st' => statement_visit_resolve_all m main_body st'
        (by simpa [statement.no_while_for] using hl))
  | .if_stat r condition main_body (some else_body), st, hl => by
    have hl' : main_body.no_while_for = true ∧ else_body.no_while_for = true := by
      simpa [statement.no_while_for] using hl
    simp only [statement.visit, resolver_handler_result, statement.type_wrappers]
    exact resolve_all_next m _ _ _ _ _ (statement.type_wrappers false)
      (resolve_all_next m _ _ _ _ _ (statement.type_wrappers false)
        (expression_visit_resolve_all m condition st)
        (fun st' => statement_visit_resolve_all m main_body st' hl'.1))
      (fun st' => statement_visit_resolve_all m else_body st' hl'.2)
  | .loop r body, st, hl => by
    simp only [statement.visit, resolver_handler_result, statement.type_wrappers]
    exact statement_visit_resolve_all m body st (by simpa [statement.no_while_for] using hl)
  | .numerical_for_loop r initial final step body, st, hl => by
    simp [statement.no_while_for] at hl
  | .while_loop r condition body, st, hl => by
    simp [statement.no_while_for] at hl
  | .alias_type_definition r name target, st, _ => by
    simp [statement.visit, resolver_handler_result, statement.type_wrappers, resolve_all]
  | .class_type_definition r name body, st, hl => by
    simp only [statement.visit, resolver_handler_result, statement.type_wrappers]
    exact statement_visit_resolve_all m body st (by simpa [statement.no_while_for] using hl)
theorem statement_visit_list_resolve_all (m : type_map) :
    ∀ (ss : List statement) (st : List seam.number), statement.no_while_for_list ss = true →
      resolve_all m (statement.type_wrappers_list false ss)
        = (statement.type_wrappers_list false (statement.visit_list (resolver m) ss st).node,
            (statement.visit_list (resolver m) ss st).error)
  | [], st, _ => by simp [statement.visit_list, statement.type_wrappers_list, resolve_all]
  | s :: rest, st, hl => by
    have hl' : s.no_while_for = true ∧ statement.no_while_for_list rest = true := by
      simpa [statement.no_while_for_list] using hl
    simp only [statement.visit_list, statement.type_wrappers_list]
    exact resolve_all_next m _ _ _ _ _ (statement.type_wrappers_list false)
      (statement_visit_resolve_all m s st hl'.1)
      (fun st' => statement_visit_list_resolve_all m rest st' hl'.2)
end

/-! ### What a run leaves alone -/

theorem next_node_frame {α β : Type} (o : outcome α (List seam.number) failure) (b : β)
    (f : List seam.number → outcome β (List seam.number) failure) (F : β → β)
    (h : ∀ st, F (f st).node = F b) : F (o.next b f).node = F b := by
  unfold outcome.next
  split
  · rfl
  · exact h _

theorem type_wrapper_visit_frame (m : type_map) (w : type_wrapper) (st : List seam.number) :
    (type_wrapper.visit (resolver m) w st).node.forget_types = w.forget_types := by
  rw [type_wrapper.visit_resolver]
  cases resolve_slot m w <;> rfl

mutual
theorem expression_visit_frame (m : type_map) :
    ∀ (x : expression) (st : List seam.number),
      (expression.visit (resolver m) x st).node.forget_types = x.forget_types
  | .number w, st => by
    simp [expression.visit, expression.forget_types, number_wrapper.visit, resolver]
  | .call r function arguments, st => by
    simp only [expression.visit, resolver_handler_result_expression, expression.forget_types,
      expression_visit_frame m function st,
      next_node_frame _ _ _ expression.forget_types_list
        (expression_visit_list_frame m arguments)]
  | .parameter r name type, st => by
    simp only [expression.visit, resolver_handler_result_expression, expression.forget_types,
      type_wrapper_visit_frame]
  | .function_signature r name parameters return_type, st => by
    simp only [expression.visit, resolver_handler_result_expression, expression.forget_types,
      expression_visit_list_frame m parameters st,
      next_node_frame _ _ _ type_wrapper.forget_types (type_wrapper_visit_frame m return_type)]
theorem expression_visit_list_frame (m : type_map) :
    ∀ (xs : List expression) (st : List seam.number),
      expression.forget_types_list (expression.visit_list (resolver m) xs st).node
        = expression.forget_types_list xs
  | [], st => by simp [expression.visit_list]
  | x :: rest, st => by
    simp only [expression.visit_list, expression.forget_types_list,
      expression_visit_frame m x st,
      next_node_frame _ _ _ expression.forget_types_list (expression_visit_list_frame m rest)]
end

mutual
theorem statement_visit_frame (m : type_map) :
    ∀ (s : statement) (st : List seam.number),
      (statement.visit (resolver m) s st).node.forget_types = s.forget_types
  | .restricted_block r body, st => by
    simp only [statement.visit, resolver_handler_result, statement.forget_types,
      statement_visit_list_frame m body st]
  | .function_definition r signature body, st => by
    simp only [statement.visit, resolver_handler_result, statement.forget_types,
      expression_visit_frame m signature st,
      next_node_frame _ _ _ statement.forget_types (statement_visit_frame m body)]
  | .block r body, st => by
    simp only [statement.visit, resolver_handler_result, statement.forget_types,
      statement_visit_list_frame m body st]
  | .ret r none, st => by
    simp only [statement.visit, resolver_handler_result, statement.forget_types]
  | .ret r (some value), st => by
    simp only [statement.visit, resolver_handler_result, statement.forget_types,
      expression_visit_frame m value st]
  | .variable_declaration r name type value, st => by
    simp only [statement.visit, resolver_handler_result, statement.forget_types,
      expression_visit_frame m value st]
  | .variable_assignment r name value, st => by
    simp only [statement.visit, resolver_handler_result, statement.forget_types,
      expression_visit_frame m value st]
  | .if_stat r condition main_body none, st => by
    simp only [statement.visit, resolver_handler_result, statement.forget_types,
      expression_visit_frame m condition st,
      next_node_frame _ _ _ statement.forget_types (statement_visit_frame m main_body)]
  | .if_stat r condition main_body (some else_body), st => by
    simp only [statement.visit, resolver_handler_result, statement.forget_types,
      expression_visit_frame m condition st,
      next_node_frame _ _ _ statement.forget_types (statement_visit_frame m main_body),
      next_node_frame _ _ _ statement.forget_types (statement_visit_frame m else_body)]
  | .loop r body, st => by
    simp only [statement.visit, resolver_handler_result, statement.forget_types,
      statement_visit_frame m body st]
  | .numerical_for_loop r initial final step body, st => by
    simp only [statement.visit, resolver_handler_result, statement.forget_types,
      expression_visit_frame m initial st,
      next_node_frame _ _ _ expression.forget_types (expression_visit_frame m final),
      next_node_frame _ _ _ expression.forget_types (expression_visit_frame m step)]
  | .while_loop r condition body, st => by
    simp only [statement.visit, resolver_handler_result, statement.forget_types,
      expression_visit_frame m condition st]
  | .alias_type_definition r name target, st => by
    simp only [statement.visit, resolver_handler_result, statement.forget_types]
  | .class_type_definition r name body, st => by
    simp only [statement.visit, resolver_handler_result, statement.forget_types,
      statement_visit_frame m body st]
theorem statement_visit_list_frame (m : type_map) :
    ∀ (ss : List statement) (st : List seam.number),
      statement.forget_types_list (statement.visit_list (resolver m) ss st).node
        = statement.forget_types_list ss
  | [], st => by simp [statement.visit_list]
  | s :: rest, st => by
    simp only [statement.visit_list, statement.forget_types_list,
      statement_visit_frame m s st,
      next_node_frame _ _ _ statement.forget_types_list (statement_visit_list_frame m rest)]
end

/-! ### Failure isolation -/

theorem failure_isolated_append_right (m : type_map) (L A x : List type_wrapper)
    (err : Option failure) (h : failure_isolated m L A err) :
    failure_isolated m (L ++ x) (A ++ x) err := by
  cases err with
  | none => simpa [failure_isolated] using h
  | some e =>
    obtain ⟨pre, pre', w, post, h₁, h₂, h₃, h₄⟩ := h
    exact ⟨pre, pre', w, post ++ x, by simp [h₁], by simp [h₂], h₃, h₄⟩

theorem failure_isolated_append_left (m : type_map) (L A x : List type_wrapper)
    (err : Option failure) (h : failure_isolated m L A err) :
    failure_isolated m (x ++ L) (x ++ A) err := by
  cases err with
  | none => simpa [failure_isolated] using h
  | some e =>
    obtain ⟨pre, pre', w, post, h₁, h₂, h₃, h₄⟩ := h
    exact ⟨x ++ pre, x ++ pre', w, post, by simp [h₁], by simp [h₂], by simp [h₃], h₄⟩

theorem failure_isolated_next {α β : Type} (m : type_map)
    (o : outcome α (List seam.number) failure) (b : β)
    (f : List seam.number → outcome β (List seam.number) failure)
    (L₁ A₁ : List type_wrapper) (W₂ : β → List type_wrapper)
    (h₁ : failure_isolated m L₁ A₁ o.error)
    (h₂ : ∀ st, failure_isolated m (W₂ b) (W₂ (f st).node) (f st).error) :
    failure_isolated m (L₁ ++ W₂ b) (A₁ ++ W₂ (o.next b f).node) (o.next b f).error := by
  cases he : o.error with
  | some e =>
    rw [outcome.next_of_error_some o b f e he]
    rw [he] at h₁
    exact failure_isolated_append_right m _ _ _ _ h₁
  | none =>
    rw [outcome.next_of_error_none o b f he]
    rw [he] at h₁
    have h := h₂ o.state
    cases he2 : (f o.state).error with
    | none =>
      rw [he2] at h
      simp only [failure_isolated] at h h₁ ⊢
      simp [h, h₁]
    | some e =>
      rw [he2] at h
      obtain ⟨pre, pre', w, post, e₁, e₂, e₃, e₄⟩ := h
      simp only [failure_isolated] at h₁
      exact ⟨L₁ ++ pre, A₁ ++ pre', w, post, by simp [e₁], by simp [e₂], by simp [e₃, h₁], e₄⟩

theorem type_wrapper_visit_failure_isolated (m : type_map) (w : type_wrapper)
    (st : List seam.number) :
    failure_isolated m [w] [(type_wrapper.visit (resolver m) w st).node]
      (type_wrapper.visit (resolver m) w st).error := by
  rw [type_wrapper.visit_resolver]
  cases h : resolve_slot m w with
  | ok v => simp [failure_isolated]
  | error e => exact ⟨[], [], w, [], rfl, rfl, rfl, h⟩

mutual
theorem expression_visit_failure_isolated (m : type_map) :
    ∀ (x : expression) (st : List seam.number),
      failure_isolated m x.type_wrappers
        (expression.visit (resolver m) x st).node.type_wrappers
        (expression.visit (resolver m) x st).error
  | .number w, st => by
    simp [expression.visit, expression.type_wrappers, failure_isolated, number_wrapper.visit,
      resolver]
  | .call r function arguments, st => by
    simp only [expression.visit, resolver_handler_result_expression, expression.type_wrappers]
    exact failure_isolated_next m _ _ _ _ _ expression.type_wrappers_list
      (expression_visit_failure_isolated m function st)
      (expression_visit_list_failure_isolated m arguments)
  | .parameter r name type, st => by
    simp only [expression.visit, resolver_handler_result_expression, expression.type_wrappers]
    exact type_wrapper_visit_failure_isolated m type st
  | .function_signature r name parameters return_type, st => by
    simp only [expression.visit, resolver_handler_result_expression, expression.type_wrappers]
    exact failure_isolated_next m _ _ _ _ _ (fun w => [w])
      (expression_visit_list_failure_isolated m parameters st)
      (type_wrapper_visit_failure_isolated m return_type)
theorem expression_visit_list_failure_isolated (m : type_map) :
    ∀ (xs : List expression) (st : List seam.number),
      failure_isolated m (expression.type_wrappers_list xs)
        (expression.type_wrappers_list (expression.visit_list (resolver m) xs st).node)
        (expression.visit_list (resolver m) xs st).error
  | [], st => by simp [expression.visit_list, expression.type_wrappers_list, failure_isolated]
  | x :: rest, st => by
    simp only [expression.visit_list, expression.type_wrappers_list]
    exact failure_isolated_next m _ _ _ _ _ expression.type_wrappers_list
      (expression_visit_failure_isolated m x st)
      (expression_visit_list_failure_isolated m rest)
end

mutual
theorem statement_visit_failure_isolated (m : type_map) :
    ∀ (s : statement) (st : List seam.number),
      failure_isolated m (s.type_wrappers true)
        ((statement.visit (resolver m) s st).node.type_wrappers true)
        (statement.visit (resolver m) s st).error
  | .restricted_block r body, st => by
    simp only [statement.visit, resolver_handler_result, statement.type_wrappers]
    exact statement_visit_list_failure_isolated m body st
  | .function_definition r signature body, st => by
    simp only [statement.visit, resolver_handler_result, statement.type_wrappers]
    exact failure_isolated_next m _ _ _ _ _ (statement.type_wrappers true)
      (expression_visit_failure_isolated m signature st)
      (statement_visit_failure_isolated m body)
  | .block r body, st => by
    simp only [statement.visit, resolver_handler_result, statement.type_wrappers]
    exact statement_visit_list_failure_isolated m body st
  | .ret r none, st => by
    simp [statement.visit, resolver_handler_result, statement.type_wrappers, failure_isolated]
  | .ret r (some value), st => by
    simp only [statement.visit, resolver_handler_result, statement.type_wrappers]
    exact expression_visit_failure_isolated m value st
  | .variable_declaration r name type value, st => by
    simp only [statement.visit, resolver_handler_result, statement.type_wrappers, if_true]
    exact failure_isolated_append_left m _ _ _ _ (expression_visit_failure_isolated m value st)
  | .variable_assignment r name value, st => by
    simp only [statement.visit, resolver_handler_result, statement.type_wrappers]
    exact expression_visit_failure_isolated m value st
  | .if_stat r condition main_body none, st => by
    simp only [statement.visit, resolver_handler_result, statement.type_wrappers]
    exact failure_isolated_next m _ _ _ _ _ (statement.type_wrappers true)
      (expression_visit_failure_isolated m condition st)
      (statement_visit_failure_isolated m main_body)
  | .if_stat r condition main_body (some else_body), st => by
    simp only [statement.visit, resolver_handler_result, statement.type_wrappers]
    exact failure_isolated_next m _ _ _ _ _ (statement.type_wrappers true)
      (failure_isolated_next m _ _ _ _ _ (statement.type_wrappers true)
        (expression_visit_failure_isolated m condition st)
        (statement_visit_failure_isolated m main_body))
      (statement_visit_failure_isolated m else_body)
  | .loop r body, st => by
    simp only [statement.visit, resolver_handler_result, statement.type_wrappers]
    exact statement_visit_failure_isolated m body st
  | .numerical_for_loop r initial final step body, st => by
    simp only [statement.visit, resolver_handler_result, statement.type_wrappers]
    exact failure_isolated_append_right m _ _ _ _
      (failure_isolated_next m _ _ _ _ _ expression.type_wrappers
        (failure_isolated_next m _ _ _ _ _ expression.type_wrappers
          (expression_visit_failure_isolated m initial st)
          (expression_visit_failure_isolated m final))
        (expression_visit_failure_isolated m step))
  | .while_loop r condition body, st => by
    simp only [statement.visit, resolver_handler_result, statement.type_wrappers]
    exact failure_isolated_append_right m _ _ _ _
      (expression_visit_failure_isolated m condition st)
  | .alias_type_definition r name target, st => by
    simp [statement.visit, resolver_handler_result, statement.type_wrappers, failure_isolated]
  | .class_type_definition r name body, st => by
    simp only [statement.visit, resolver_handler_result, statement.type_wrappers]
    exact statement_visit_failure_isolated m body st
theorem statement_visit_list_failure_isolated (m : type_map) :
    ∀ (ss : List statement) (st : List seam.number),
      failure_isolated m (statement.type_wrappers_list true ss)
        (statement.type_wrappers_list true (statement.visit_list (resolver m) ss st).node)
        (statement.visit_list (resolver m) ss st).error
  | [], st => by simp [statement.visit_list, statement.type_wrappers_list, failure_isolated]
  | s :: rest, st => by
    simp only [statement.visit_list, statement.type_wrappers_list]
    exact failure_isolated_next m _ _ _ _ _ (statement.type_wrappers_list true)
      (statement_visit_failure_isolated m s st)
      (statement_visit_list_failure_isolated m rest)
end

/-! ### What a run returns -/

theorem resolve_slot_unresolved (m : type_map) (w : type_wrapper) (name : String)
    (h : w.value = .unresolved_type name) :
    resolve_slot m w
      = match m name with
        | some object => .ok (.resolved object)
        | none => .error (.parser_exception w.range.start cannot_resolve) := by
  unfold resolve_slot resolver
  simp only [h]
  cases m name <;> rfl

theorem resolve_slot_resolved (m : type_map) (w : type_wrapper) (object : Nat)
    (h : w.value = .resolved object) : resolve_slot m w = .error .undefined_cast := by
  unfold resolve_slot resolver
  simp only [h]

theorem resolve_slot_parser_exception (m : type_map) (w : type_wrapper) (p : position)
    (msg : String) (h : resolve_slot m w = .error (.parser_exception p msg)) :
    ∃ name, w.value = .unresolved_type name ∧ m name = none ∧ p = w.range.start
      ∧ msg = cannot_resolve := by
  cases hv : w.value with
  | resolved object => rw [resolve_slot_resolved m w object hv] at h; simp at h
  | unresolved_type name =>
    rw [resolve_slot_unresolved m w name hv] at h
    cases hm : m name with
    | some object => simp [hm] at h
    | none =>
      simp only [hm, Except.error.injEq, failure.parser_exception.injEq] at h
      exact ⟨name, rfl, hm, h.1.symm, h.2.symm⟩

theorem resolve_all_error (m : type_map) (L : List type_wrapper)
    (hu : ∀ w ∈ L, ∃ name, w.value = .unresolved_type name) :
    (resolve_all m L).2
      = (L.find? (names_missing_type m)).map
          fun w => .parser_exception w.range.start cannot_resolve := by
  induction L with
  | nil => rfl
  | cons w rest ih =>
    obtain ⟨name, hv⟩ := hu w (List.mem_cons_self _ _)
    have ih' := ih (fun u hu' => hu u (List.mem_cons_of_mem _ hu'))
    simp only [resolve_all, resolve_slot_unresolved m w name hv, List.find?_cons,
      names_missing_type, hv]
    cases hm : m name with
    | some object => simpa using ih'
    | none => simp

theorem resolve_all_resolved (m : type_map) (L : List type_wrapper)
    (h : ∀ w ∈ L, ∃ name object, w.value = .unresolved_type name ∧ m name = some object) :
    ∀ w ∈ (resolve_all m L).1, ∃ object, w.value = .resolved object := by
  induction L with
  | nil => simp [resolve_all]
  | cons u rest ih =>
    obtain ⟨name, object, hv, hm⟩ := h u (List.mem_cons_self _ _)
    have ih' := ih (fun x hx => h x (List.mem_cons_of_mem _ hx))
    simp only [resolve_all, resolve_slot_unresolved m u name hv, hm, List.mem_cons]
    rintro w (rfl | hw)
    · exact ⟨object, rfl⟩
    · exact ih' w hw

mutual
theorem statement.type_wrappers_sublist :
    ∀ s : statement, (s.type_wrappers false).Sublist (s.type_wrappers true)
  | .restricted_block r body => by
    simpa only [statement.type_wrappers] using statement.type_wrappers_list_sublist body
  | .function_definition r signature body => by
    simp only [statement.type_wrappers]
    exact List.Sublist.append (List.Sublist.refl _) (statement.type_wrappers_sublist body)
  | .block r body => by
    simpa only [statement.type_wrappers] using statement.type_wrappers_list_sublist body
  | .ret r none => by simp [statement.type_wrappers]
  | .ret r (some value) => by simp [statement.type_wrappers]
  | .variable_declaration r name type value => by simp [statement.type_wrappers]
  | .variable_assignment r name value => by simp [statement.type_wrappers]
  | .if_stat r condition main_body none => by
    simp only [statement.type_wrappers]
    exact List.Sublist.append (List.Sublist.refl _) (statement.type_wrappers_sublist main_body)
  | .if_stat r condition main_body (some else_body) => by
    simp only [statement.type_wrappers]
    exact List.Sublist.append (List.Sublist.append (List.Sublist.refl _)
      (statement.type_wrappers_sublist main_body)) (statement.type_wrappers_sublist else_body)
  | .loop r body => by
    simpa only [statement.type_wrappers] using statement.type_wrappers_sublist body
  | .numerical_for_loop r initial final step body => by
    simp only [statement.type_wrappers]
    exact List.Sublist.append (List.Sublist.refl _) (statement.type_wrappers_sublist body)
  | .while_loop r condition body => by
    simp only [statement.type_wrappers]
    exact List.Sublist.append (List.Sublist.refl _) (statement.type_wrappers_sublist body)
  | .alias_type_definition r name target => by simp [statement.type_wrappers]
  | .class_type_definition r name body => by
    simpa only [statement.type_wrappers] using statement.type_wrappers_sublist body
theorem statement.type_wrappers_list_sublist :
    ∀ ss : List statement,
      (statement.type_wrappers_list false ss).Sublist (statement.type_wrappers_list true ss)
  | [] => by simp [statement.type_wrappers_list]
  | s :: rest => by
    simp only [statement.type_wrappers_list]
    exact List.Sublist.append (statement.type_wrappers_sublist s)
      (statement.type_wrappers_list_sublist rest)
end

/-- C5: for every wrapper holding `unresolved_type{name}` and every map with an entry for
`name`, the resolver's handler returns false without failing and assigns the map's entry to the
slot, whatever the state; the wrapper's `visit` is that one handler invocation; and any other
wrapper naming the same type ends up holding the same resolved type object. -/
theorem resolver_visit_type_wrapper_hit (m : type_map) (w : type_wrapper) (name : String)
    (object : Nat) (st : List number) (hv : w.value = .unresolved_type name)
    (hm : m name = some object) :
    (resolver m).visit_type_wrapper w st = .ok (false, .resolved object, st)
      ∧ type_wrapper.visit (resolver m) w st
          = ⟨{ w with value := .resolved object }, st, [.type_wrapper w], none⟩
      ∧ ∀ (w' : type_wrapper) (st' : List number), w'.value = .unresolved_type name →
          (type_wrapper.visit (resolver m) w' st').node.value
            = (type_wrapper.visit (resolver m) w st).node.value := by
  have h : ∀ (u : type_wrapper) (s : List number), u.value = .unresolved_type name →
      type_wrapper.visit (resolver m) u s
        = ⟨{ u with value := .resolved object }, s, [.type_wrapper u], none⟩ := by
    intro u s hu
    rw [type_wrapper.visit_resolver, resolve_slot_unresolved m u name hu, hm]
  refine ⟨?_, h w st hv, ?_⟩
  · rw [resolver_visit_type_wrapper, resolve_slot_unresolved m w name hv, hm]
  · intro w' st' hv'
    rw [h w' st' hv', h w st hv]

theorem resolver_visit_type_wrapper_hit_witness :
    (resolver example_map).visit_type_wrapper ⟨at_line 1 6, .unresolved_type "int"⟩ []
        = .ok (false, .resolved 0, [])
      ∧ type_wrapper.visit (resolver example_map) ⟨at_line 1 6, .unresolved_type "int"⟩ []
          = ⟨⟨at_line 1 6, .resolved 0⟩, [],
              [.type_wrapper ⟨at_line 1 6, .unresolved_type "int"⟩], none⟩
      ∧ ∀ (w' : type_wrapper) (st' : List number), w'.value = .unresolved_type "int" →
          (type_wrapper.visit (resolver example_map) w' st').node.value
            = (type_wrapper.visit (resolver example_map)
                ⟨at_line 1 6, .unresolved_type "int"⟩ []).node.value :=
  resolver_visit_type_wrapper_hit example_map ⟨at_line 1 6, .unresolved_type "int"⟩ "int" 0 []
    rfl rfl

/-- C4: when a run fails with the resolver's exception, the wrappers of the tree, in pre-order,
split at a wrapper `w` whose name has no entry in the map and whose range start the exception
carries; `w` itself and every wrapper behind it are after the run what they were before it, as
many wrappers stand before `w` as did before the run, and nothing of the tree but type slots
has changed. -/
theorem type_resolver.run_failure_isolation (m : type_map) (root : statement) (p : position)
    (msg : String) (h : (type_resolver.run m root).error = some (.parser_exception p msg)) :
    (∃ pre pre' w post name, root.type_wrappers true = pre ++ w :: post
        ∧ (type_resolver.run m root).node.type_wrappers true = pre' ++ w :: post
        ∧ pre.length = pre'.length
        ∧ w.value = .unresolved_type name ∧ m name = none ∧ p = w.range.start)
      ∧ (type_resolver.run m root).node.forget_types = root.forget_types := by
  have hB := statement_visit_failure_isolated m root []
  refine ⟨?_, statement_visit_frame m root []⟩
  unfold type_resolver.run at h ⊢
  rw [h] at hB
  obtain ⟨pre, pre', w, post, h₁, h₂, h₃, h₄⟩ := hB
  obtain ⟨name, hv, hm, hp, _⟩ := resolve_slot_parser_exception m w p msg h₄
  exact ⟨pre, pre', w, post, name, h₁, h₂, h₃, hv, hm, hp⟩

theorem type_resolver.run_failure_isolation_witness :
    (type_resolver.run example_map dangling_unit).error
        = some (.parser_exception ⟨1, 14⟩ cannot_resolve)
      ∧ (∃ pre pre' w post name, dangling_unit.type_wrappers true = pre ++ w :: post
        ∧ (type_resolver.run example_map dangling_unit).node.type_wrappers true
            = pre' ++ w :: post
        ∧ pre.length = pre'.length
        ∧ w.value = .unresolved_type name ∧ example_map name = none
        ∧ (⟨1, 14⟩ : position) = w.range.start)
      ∧ (type_resolver.run example_map dangling_unit).node.forget_types
          = dangling_unit.forget_types :=
  ⟨rfl, type_resolver.run_failure_isolation example_map dangling_unit ⟨1, 14⟩ cannot_resolve rfl⟩

/-! ### Resolution totality -/

/-- C1 (counterexample): in the unit `type T = int` the only wrapper names `int`, which the map
knows; the run returns normally and the wrapper still holds `unresolved_type{int}`. -/
theorem type_resolver.run_leaves_alias_target :
    (∀ w ∈ alias_unit.type_wrappers true,
        ∃ name object, w.value = .unresolved_type name ∧ example_map name = some object)
      ∧ (type_resolver.run example_map alias_unit).error = none
      ∧ (type_resolver.run example_map alias_unit).node.type_wrappers true
          = [⟨at_line 1 10, .unresolved_type "int"⟩] := by
  refine ⟨?_, rfl, rfl⟩
  intro w hw
  have hw' : w = ⟨at_line 1 10, .unresolved_type "int"⟩ := by
    simpa [alias_unit, statement.type_wrappers, statement.type_wrappers_list] using hw
  exact ⟨"int", 0, by rw [hw'], rfl⟩

/-- C1 (amended): for every tree and type map such that every wrapper of the tree names a type
that has an entry in the map, the run returns normally; and if the tree has no while loop and no
numerical for loop, afterwards no wrapper held by an expression node (a parameter's type, a
signature's return type) holds the unresolved variant. -/
theorem type_resolver.run_resolves (m : type_map) (root : statement)
    (h : ∀ w ∈ root.type_wrappers true,
      ∃ name object, w.value = .unresolved_type name ∧ m name = some object) :
    (type_resolver.run m root).error = none
      ∧ (root.no_while_for = true →
          ∀ w ∈ (type_resolver.run m root).node.type_wrappers false,
            ∃ object, w.value = .resolved object) := by
  constructor
  · have hB := statement_visit_failure_isolated m root []
    unfold type_resolver.run
    cases he : (statement.visit (resolver m) root []).error with
    | none => rfl
    | some e =>
      rw [he] at hB
      obtain ⟨pre, pre', w, post, h₁, _, _, h₄⟩ := hB
      obtain ⟨name, object, hv, hm⟩ := h w (by rw [h₁]; simp)
      rw [resolve_slot_unresolved m w name hv, hm] at h₄
      simp at h₄
  · intro hl w hw
    have hA := statement_visit_resolve_all m root [] hl
    unfold type_resolver.run at hw
    have h' : ∀ w ∈ root.type_wrappers false,
        ∃ name object, w.value = .unresolved_type name ∧ m name = some object :=
      fun u hu => h u ((statement.type_wrappers_sublist root).subset hu)
    have hr := resolve_all_resolved m _ h' w
    rw [hA] at hr
    exact hr hw

theorem type_resolver.run_resolves_witness :
    (∀ w ∈ function_unit.type_wrappers true,
        ∃ name object, w.value = .unresolved_type name ∧ example_map name = some object)
      ∧ (type_resolver.run example_map function_unit).error = none
      ∧ function_unit.no_while_for = true
      ∧ ∀ w ∈ (type_resolver.run example_map function_unit).node.type_wrappers false,
          ∃ object, w.value = .resolved object :=
  have h : ∀ w ∈ function_unit.type_wrappers true,
      ∃ name object, w.value = .unresolved_type name ∧ example_map name = some object := by
    intro w hw
    have hw' : w = ⟨at_line 1 6, .unresolved_type "int"⟩
        ∨ w = ⟨at_line 1 14, .unresolved_type "bool"⟩
        ∨ w = ⟨at_line 1 23, .unresolved_type "int"⟩
        ∨ w = ⟨at_line 3 8, .unresolved_type "int"⟩ := by
      simpa [function_unit, example_signature, statement.type_wrappers,
        statement.type_wrappers_list, expression.type_wrappers,
        expression.type_wrappers_list] using hw
    rcases hw' with rfl | rfl | rfl | rfl
    · exact ⟨"int", 0, rfl, rfl⟩
    · exact ⟨"bool", 1, rfl, rfl⟩
    · exact ⟨"int", 0, rfl, rfl⟩
    · exact ⟨"int", 0, rfl, rfl⟩
  ⟨h, (type_resolver.run_resolves example_map function_unit h).1, rfl,
    (type_resolver.run_resolves example_map function_unit h).2 rfl⟩

/-- C2 (counterexample): in the unit `type T = missing` a wrapper names a type the map has no
entry for, and the run returns normally. -/
theorem type_resolver.run_misses_dangling_alias :
    dangling_alias_unit.type_wrappers true = [⟨at_line 1 10, .unresolved_type "missing"⟩]
      ∧ example_map "missing" = none
      ∧ (type_resolver.run example_map dangling_alias_unit).error = none :=
  ⟨rfl, rfl, rfl⟩

/-- C2 (amended): for every tree that has no while loop and no numerical for loop and whose
wrappers held by expression nodes are all unresolved, the run returns normally if and only if
every type name held by one of those wrappers has an entry in the map; if it does not return
normally, it fails with the resolver's internal-compiler-error exception. -/
theorem type_resolver.run_returns_iff (m : type_map) (root : statement)
    (hl : root.no_while_for = true)
    (hu : ∀ w ∈ root.type_wrappers false, ∃ name, w.value = .unresolved_type name) :
    ((type_resolver.run m root).error = none
        ↔ ∀ w ∈ root.type_wrappers false, ∀ name, w.value = .unresolved_type name →
            ∃ object, m name = some object)
      ∧ ((type_resolver.run m root).error ≠ none →
          ∃ p, (type_resolver.run m root).error
            = some (.parser_exception p cannot_resolve)) := by
  have hA := statement_visit_resolve_all m root [] hl
  have hE := resolve_all_error m _ hu
  rw [hA] at hE
  simp only at hE
  unfold type_resolver.run
  rw [hE]
  constructor
  · rw [Option.map_eq_none', List.find?_eq_none]
    constructor
    · intro h w hw name hv
      have := h w hw
      simp only [names_missing_type, hv, Bool.not_eq_true, Option.isNone_eq_false_iff,
        Option.isSome_iff_exists] at this
      exact this
    · intro h w hw
      obtain ⟨name, hv⟩ := hu w hw
      obtain ⟨object, hm⟩ := h w hw name hv
      simp [names_missing_type, hv, hm]
  · intro hne
    cases hf : List.find? (names_missing_type m) (root.type_wrappers false) with
    | none => simp [hf] at hne
    | some w => exact ⟨w.range.start, by simp⟩

theorem type_resolver.run_returns_iff_witness :
    dangling_unit.no_while_for = true
      ∧ (∀ w ∈ dangling_unit.type_wrappers false, ∃ name, w.value = .unresolved_type name)
      ∧ ((type_resolver.run example_map dangling_unit).error = none
          ↔ ∀ w ∈ dangling_unit.type_wrappers false, ∀ name, w.value = .unresolved_type name →
              ∃ object, example_map name = some object)
      ∧ ((type_resolver.run example_map dangling_unit).error ≠ none →
          ∃ p, (type_resolver.run example_map dangling_unit).error
            = some (.parser_exception p cannot_resolve)) :=
  have hu : ∀ w ∈ dangling_unit.type_wrappers false, ∃ name, w.value = .unresolved_type name := by
    intro w hw
    have hw' : w = ⟨at_line 1 6, .unresolved_type "int"⟩
        ∨ w = ⟨at_line 1 14, .unresolved_type "missing"⟩
        ∨ w = ⟨at_line 1 26, .unresolved_type "bool"⟩ := by
      simpa [dangling_unit, dangling_signature, statement.type_wrappers,
        statement.type_wrappers_list, expression.type_wrappers,
        expression.type_wrappers_list] using hw
    rcases hw' with rfl | rfl | rfl <;> exact ⟨_, rfl⟩
  ⟨rfl, hu, type_resolver.run_returns_iff example_map dangling_unit rfl hu⟩

/-- C3 (counterexample): in this unit exactly one wrapper, the type slot of the declaration of
`z`, names a type the map has no entry for, and the run does not fail. -/
theorem type_resolver.run_misses_dangling_declaration :
    (dangling_declaration_unit.type_wrappers true).filter (names_missing_type example_map)
        = [⟨at_line 3 8, .unresolved_type "missing"⟩]
      ∧ (type_resolver.run example_map dangling_declaration_unit).error = none :=
  ⟨rfl, rfl⟩

/-- C3 (amended): for every tree that has no while loop and no numerical for loop and whose
wrappers held by expression nodes are all unresolved, if exactly one of those wrappers names a
type absent from the map, the run fails and the exception carries the start position of that
wrapper's range and the message "internal compiler error: cannot resolve type". -/
theorem type_resolver.run_reports_position (m : type_map) (root : statement) (w : type_wrapper)
    (hl : root.no_while_for = true)
    (hu : ∀ u ∈ root.type_wrappers false, ∃ name, u.value = .unresolved_type name)
    (hw : (root.type_wrappers false).filter (names_missing_type m) = [w]) :
    (type_resolver.run m root).error
      = some (.parser_exception w.range.start
          "internal compiler error: cannot resolve type") := by
  have hA := statement_visit_resolve_all m root [] hl
  have hE := resolve_all_error m _ hu
  rw [hA] at hE
  simp only at hE
  unfold type_resolver.run
  rw [hE, ← List.filter_head?, hw]
  rfl

theorem type_resolver.run_reports_position_witness :
    dangling_unit.no_while_for = true
      ∧ (∀ u ∈ dangling_unit.type_wrappers false, ∃ name, u.value = .unresolved_type name)
      ∧ (dangling_unit.type_wrappers false).filter (names_missing_type example_map)
          = [⟨at_line 1 14, .unresolved_type "missing"⟩]
      ∧ (type_resolver.run example_map dangling_unit).error
          = some (.parser_exception ⟨1, 14⟩ "internal compiler error: cannot resolve type") :=
  have hu : ∀ u ∈ dangling_unit.type_wrappers false, ∃ name, u.value = .unresolved_type name := by
    intro w hw
    have hw' : w = ⟨at_line 1 6, .unresolved_type "int"⟩
        ∨ w = ⟨at_line 1 14, .unresolved_type "missing"⟩
        ∨ w = ⟨at_line 1 26, .unresolved_type "bool"⟩ := by
      simpa [dangling_unit, dangling_signature, statement.type_wrappers,
        statement.type_wrappers_list, expression.type_wrappers,
        expression.type_wrappers_list] using hw
    rcases hw' with rfl | rfl | rfl <;> exact ⟨_, rfl⟩
  ⟨rfl, hu, rfl,
    type_resolver.run_reports_position example_map dangling_unit
      ⟨at_line 1 14, .unresolved_type "missing"⟩ rfl hu rfl⟩

/-! ### Frame and number wrappers -/

/-- C11: for every tree and type map, whether the run succeeds or fails, the tree after
`type_resolver::run` with its type slots blanked is the tree before it with its type slots
blanked: shape, node kinds, children and their order, source ranges, names and number slots are
the same, and only the value slot of type wrappers can differ. The map is an argument the run
reads and has no way to change. -/
theorem type_resolver.run_frame (m : type_map) (root : statement) :
    (type_resolver.run m root).node.forget_types = root.forget_types :=
  statement_visit_frame m root []

/-- C14: for every number wrapper, map and state, the resolver's number handler does not fail,
returns false and leaves the slot as it is (its only effect is the line it prints); the
wrapper's `visit` is that one handler invocation, and the node after it is the node before. -/
theorem resolver_visit_number_wrapper (m : type_map) (w : number_wrapper) (st : List number) :
    (resolver m).visit_number_wrapper w st = .ok (false, w.value, st ++ [w.value])
      ∧ number_wrapper.visit (resolver m) w st
          = ⟨w, st ++ [w.value], [.expression (.number w)], none⟩
      ∧ expression.visit (resolver m) (.number w) st
          = ⟨.number w, st ++ [w.value], [.expression (.number w)], none⟩ :=
  ⟨rfl, rfl, rfl⟩

mutual
theorem expression_number_wrappers_forget :
    ∀ x : expression, x.forget_types.number_wrappers = x.number_wrappers
  | .number w => by simp [expression.forget_types]
  | .call r function arguments => by
    simp only [expression.forget_types, expression.number_wrappers,
      expression_number_wrappers_forget function,
      expression_number_wrappers_list_forget arguments]
  | .parameter r name type => by
    simp only [expression.forget_types, expression.number_wrappers]
  | .function_signature r name parameters return_type => by
    simp only [expression.forget_types, expression.number_wrappers,
      expression_number_wrappers_list_forget parameters]
theorem expression_number_wrappers_list_forget :
    ∀ xs : List expression,
      expression.number_wrappers_list (expression.forget_types_list xs)
        = expression.number_wrappers_list xs
  | [] => by simp [expression.forget_types_list]
  | x :: rest => by
    simp only [expression.forget_types_list, expression.number_wrappers_list,
      expression_number_wrappers_forget x, expression_number_wrappers_list_forget rest]
end

mutual
theorem statement_number_wrappers_forget :
    ∀ s : statement, s.forget_types.number_wrappers = s.number_wrappers
  | .restricted_block r body => by
    simp only [statement.forget_types, statement.number_wrappers,
      statement_number_wrappers_list_forget body]
  | .function_definition r signature body => by
    simp only [statement.forget_types, statement.number_wrappers,
      expression_number_wrappers_forget, statement_number_wrappers_forget body]
  | .block r body => by
    simp only [statement.forget_types, statement.number_wrappers,
      statement_number_wrappers_list_forget body]
  | .ret r none => by simp only [statement.forget_types]
  | .ret r (some value) => by
    simp only [statement.forget_types, statement.number_wrappers,
      expression_number_wrappers_forget]
  | .variable_declaration r name type value => by
    simp only [statement.forget_types, statement.number_wrappers,
      expression_number_wrappers_forget]
  | .variable_assignment r name value => by
    simp only [statement.forget_types, statement.number_wrappers,
      expression_number_wrappers_forget]
  | .if_stat r condition main_body none => by
    simp only [statement.forget_types, statement.number_wrappers,
      expression_number_wrappers_forget, statement_number_wrappers_forget main_body]
  | .if_stat r condition main_body (some else_body) => by
    simp only [statement.forget_types, statement.number_wrappers,
      expression_number_wrappers_forget, statement_number_wrappers_forget main_body,
      statement_number_wrappers_forget else_body]
  | .loop r body => by
    simp only [statement.forget_types, statement.number_wrappers,
      statement_number_wrappers_forget body]
  | .numerical_for_loop r initial final step body => by
    simp only [statement.forget_types, statement.number_wrappers,
      expression_number_wrappers_forget, statement_number_wrappers_forget body]
  | .while_loop r condition body => by
    simp only [statement.forget_types, statement.number_wrappers,
      expression_number_wrappers_forget, statement_number_wrappers_forget body]
  | .alias_type_definition r name target => by
    simp only [statement.forget_types, statement.number_wrappers]
  | .class_type_definition r name body => by
    simp only [statement.forget_types, statement.number_wrappers,
      statement_number_wrappers_forget body]
theorem statement_number_wrappers_list_forget :
    ∀ ss : List statement,
      statement.number_wrappers_list (statement.forget_types_list ss)
        = statement.number_wrappers_list ss
  | [] => by simp [statement.forget_types_list]
  | s :: rest => by
    simp only [statement.forget_types_list, statement.number_wrappers_list,
      statement_number_wrappers_forget s, statement_number_wrappers_list_forget rest]
end

/-- C12 (counterexample): the run over `function_unit` succeeds, and the four number wrappers of
the tree, all of them visited, hold the unresolved placeholder afterwards. -/
theorem type_resolver.run_keeps_number_placeholders :
    (type_resolver.run example_map function_unit).error = none
      ∧ (type_resolver.run example_map function_unit).node.number_wrappers
        = [⟨at_line 3 14, .unresolved_number "5"⟩, ⟨at_line 4 4, .unresolved_number "1"⟩,
            ⟨at_line 6 8, .unresolved_number "0"⟩, ⟨at_line 6 10, .unresolved_number "2"⟩]
      ∧ (type_resolver.run example_map function_unit).state
        = [.unresolved_number "5", .unresolved_number "1", .unresolved_number "0",
            .unresolved_number "2"] :=
  ⟨rfl, rfl, rfl⟩

/-- C12 (amended): after `type_resolver::run` over a tree, successful or not, every number
wrapper holds exactly the value it held before the run: the resolver observes a number wrapper
and does not assign its slot, so one that held an unresolved placeholder still holds it. -/
theorem type_resolver.run_number_wrappers (m : type_map) (root : statement) :
    (type_resolver.run m root).node.number_wrappers = root.number_wrappers := by
  rw [← statement_number_wrappers_forget (type_resolver.run m root).node,
    ← statement_number_wrappers_forget root]
  unfold type_resolver.run
  rw [statement_visit_frame m root []]

/-! ### The wrappers a run reaches -/

theorem default_handler_result (s : statement) (st : Unit) :
    handler_result (default_visitor.visit_statement s st) st = (true, st, none) := rfl

theorem default_handler_result_expression (x : expression) (st : Unit) :
    handler_result (default_visitor.visit_expression x st) st = (true, st, none) := rfl

theorem next_of_empty {α β σ : Type} (o : outcome α σ Empty) (b : β)
    (f : σ → outcome β σ Empty) : o.next b f = f o.state := by
  cases h : o.error with
  | none => exact outcome.next_of_error_none o b f h
  | some e => exact e.elim

theorem visited_wrappers_cons_statement (s : statement) (l : List node) :
    visited_wrappers (.statement s :: l) = visited_wrappers l := rfl

theorem visited_wrappers_cons_expression (x : expression) (l : List node) :
    visited_wrappers (.expression x :: l) = visited_wrappers l := rfl

theorem visited_wrappers_append (a b : List node) :
    visited_wrappers (a ++ b) = visited_wrappers a ++ visited_wrappers b := by
  simp [visited_wrappers]

theorem type_wrapper_reached (w : type_wrapper) (st : Unit) :
    visited_wrappers (type_wrapper.visit default_visitor w st).trace = [w] := rfl

theorem type_wrapper_visit_reached (m : type_map) (w : type_wrapper) (st : List seam.number) :
    resolve_all m [w]
      = (visited_wrappers (type_wrapper.visit default_visitor
            (type_wrapper.visit (resolver m) w st).node ()).trace,
          (type_wrapper.visit (resolver m) w st).error) := by
  rw [type_wrapper_reached]
  exact type_wrapper_visit_resolve_all m w st

mutual
theorem expression_visit_reached (m : type_map) :
    ∀ (x : expression) (st : List seam.number),
      resolve_all m x.reached_type_wrappers
        = ((expression.visit (resolver m) x st).node.reached_type_wrappers,
            (expression.visit (resolver m) x st).error)
  | .number w, st => by
    simp [expression.reached_type_wrappers, expression.visit, number_wrapper.visit, resolver,
      default_visitor, visited_wrappers, node.as_type_wrapper, resolve_all]
  | .call r function arguments, st => by
    simp only [expression.reached_type_wrappers, expression.visit,
      resolver_handler_result_expression, default_handler_result_expression, next_of_empty,
      visited_wrappers_cons_expression, visited_wrappers_append]
    exact resolve_all_next m _ _ _ _ _ expression.reached_type_wrappers_list
      (expression_visit_reached m function st)
      (expression_visit_list_reached m arguments)
  | .parameter r name type, st => by
    simp only [expression.reached_type_wrappers, expression.visit,
      resolver_handler_result_expression, default_handler_result_expression,
      visited_wrappers_cons_expression]
    exact type_wrapper_visit_reached m type st
  | .function_signature r name parameters return_type, st => by
    simp only [expression.reached_type_wrappers, expression.visit,
      resolver_handler_result_expression, default_handler_result_expression, next_of_empty,
      visited_wrappers_cons_expression, visited_wrappers_append]
    exact resolve_all_next m _ _ _ _ _
      (fun w => visited_wrappers (type_wrapper.visit default_visitor w ()).trace)
      (expression_visit_list_reached m parameters st)
      (type_wrapper_visit_reached m return_type)
theorem expression_visit_list_reached (m : type_map) :
    ∀ (xs : List expression) (st : List seam.number),
      resolve_all m (expression.reached_type_wrappers_list xs)
        = (expression.reached_type_wrappers_list
            (expression.visit_list (resolver m) xs st).node,
            (expression.visit_list (resolver m) xs st).error)
  | [], st => by
    simp [expression.reached_type_wrappers_list, expression.visit_list, visited_wrappers,
      resolve_all]
  | x :: rest, st => by
    simp only [expression.reached_type_wrappers_list, expression.visit_list, next_of_empty,
      visited_wrappers_append]
    exact resolve_all_next m _ _ _ _ _ expression.reached_type_wrappers_list
      (expression_visit_reached m x st)
      (expression_visit_list_reached m rest)
end
mutual
theorem statement_visit_reached (m : type_map) :
    ∀ (s : statement) (st : List seam.number),
      resolve_all m s.reached_type_wrappers
        = ((statement.visit (resolver m) s st).node.reached_type_wrappers,
            (statement.visit (resolver m) s st).error)
  | .restricted_block r body, st => by
    simp only [statement.reached_type_wrappers, statement.visit, resolver_handler_result,
      default_handler_result, next_of_empty, visited_wrappers_cons_statement,
      visited_wrappers_append]
    exact statement_visit_list_reached m body st
  | .function_definition r signature body, st => by
    simp only [statement.reached_type_wrappers, statement.visit, resolver_handler_result,
      default_handler_result, next_of_empty, visited_wrappers_cons_statement,
      visited_wrappers_append]
    exact resolve_all_next m _ _ _ _ _ statement.reached_type_wrappers
      (expression_visit_reached m signature st) (statement_visit_reached m body)
  | .block r body, st => by
    simp only [statement.reached_type_wrappers, statement.visit, resolver_handler_result,
      default_handler_result, next_of_empty, visited_wrappers_cons_statement,
      visited_wrappers_append]
    exact statement_visit_list_reached m body st
  | .ret r none, st => by
    simp [statement.reached_type_wrappers, statement.visit, resolver_handler_result,
      default_handler_result, visited_wrappers, node.as_type_wrapper, resolve_all]
  | .ret r (some value), st => by
    simp only [statement.reached_type_wrappers, statement.visit, resolver_handler_result,
      default_handler_result, next_of_empty, visited_wrappers_cons_statement,
      visited_wrappers_append]
    exact expression_visit_reached m value st
  | .variable_declaration r name type value, st => by
    simp only [statement.reached_type_wrappers, statement.visit, resolver_handler_result,
      default_handler_result, next_of_empty, visited_wrappers_cons_statement,
      visited_wrappers_append]
    exact expression_visit_reached m value st
  | .variable_assignment r name value, st => by
    simp only [statement.reached_type_wrappers, statement.visit, resolver_handler_result,
      default_handler_result, next_of_empty, visited_wrappers_cons_statement,
      visited_wrappers_append]
    exact expression_visit_reached m value st
  | .if_stat r condition main_body none, st => by
    simp only [statement.reached_type_wrappers, statement.visit, resolver_handler_result,
      default_handler_result, next_of_empty, visited_wrappers_cons_statement,
      visited_wrappers_append]
    exact resolve_all_next m _ _ _ _ _ statement.reached_type_wrappers
      (expression_visit_reached m condition st) (statement_visit_reached m main_body)
  | .if_stat r condition main_body (some else_body), st => by
    simp only [statement.reached_type_wrappers, statement.visit, resolver_handler_result,
      default_handler_result, next_of_empty, visited_wrappers_cons_statement,
      visited_wrappers_append]
    exact resolve_all_next m _ _ _ _ _ statement.reached_type_wrappers
      (resolve_all_next m _ _ _ _ _ statement.reached_type_wrappers
        (expression_visit_reached m condition st) (statement_visit_reached m main_body))
      (statement_visit_reached m else_body)
  | .loop r body, st => by
    simp only [statement.reached_type_wrappers, statement.visit, resolver_handler_result,
      default_handler_result, next_of_empty, visited_wrappers_cons_statement,
      visited_wrappers_append]
    exact statement_visit_reached m body st
  | .numerical_for_loop r initial final step body, st => by
    simp only [statement.reached_type_wrappers, statement.visit, resolver_handler_result,
      default_handler_result, next_of_empty, visited_wrappers_cons_statement,
      visited_wrappers_append]
    exact resolve_all_next m _ _ _ _ _ expression.reached_type_wrappers
      (resolve_all_next m _ _ _ _ _ expression.reached_type_wrappers
        (expression_visit_reached m initial st) (expression_visit_reached m final))
      (expression_visit_reached m step)
  | .while_loop r condition body, st => by
    simp only [statement.reached_type_wrappers, statement.visit, resolver_handler_result,
      default_handler_result, next_of_empty, visited_wrappers_cons_statement,
      visited_wrappers_append]
    exact expression_visit_reached m condition st
  | .alias_type_definition r name target, st => by
    simp [statement.reached_type_wrappers, statement.visit, resolver_handler_result,
      default_handler_result, visited_wrappers, node.as_type_wrapper, resolve_all]
  | .class_type_definition r name body, st => by
    simp only [statement.reached_type_wrappers, statement.visit, resolver_handler_result,
      default_handler_result, next_of_empty, visited_wrappers_cons_statement,
      visited_wrappers_append]
    exact statement_visit_reached m body st
theorem statement_visit_list_reached (m : type_map) :
    ∀ (ss : List statement) (st : List seam.number),
      resolve_all m (statement.reached_type_wrappers_list ss)
        = (statement.reached_type_wrappers_list
            (statement.visit_list (resolver m) ss st).node,
            (statement.visit_list (resolver m) ss st).error)
  | [], st => by
    simp [statement.reached_type_wrappers_list, statement.visit_list, visited_wrappers,
      resolve_all]
  | s :: rest, st => by
    simp only [statement.reached_type_wrappers_list, statement.visit_list, next_of_empty,
      visited_wrappers_append]
    exact resolve_all_next m _ _ _ _ _ statement.reached_type_wrappers_list
      (statement_visit_reached m s st)
      (statement_visit_list_reached m rest)
end

theorem resolve_slot_ok (m : type_map) (u : type_wrapper) (v : type)
    (h : resolve_slot m u = .ok v) :
    ∃ name object, u.value = .unresolved_type name ∧ m name = some object
      ∧ v = .resolved object := by
  cases hv : u.value with
  | resolved object => rw [resolve_slot_resolved m u object hv] at h; simp at h
  | unresolved_type name =>
    rw [resolve_slot_unresolved m u name hv] at h
    cases hm : m name with
    | none => simp [hm] at h
    | some object =>
      simp only [hm, Except.ok.injEq] at h
      exact ⟨name, object, rfl, hm, h.symm⟩

theorem resolve_all_first_failure (m : type_map) (pre post : List type_wrapper)
    (w : type_wrapper) (e : failure) (hpre : ∀ u ∈ pre, ∃ v, resolve_slot m u = .ok v)
    (hw : resolve_slot m w = .error e) :
    resolve_all m (pre ++ w :: post) = (pre.map (resolve_wrapper m) ++ w :: post, some e) := by
  induction pre with
  | nil => simp [resolve_all, hw]
  | cons u rest ih =>
    obtain ⟨v, hv⟩ := hpre u (List.mem_cons_self _ _)
    have ih' := ih (fun x hx => hpre x (List.mem_cons_of_mem _ hx))
    simp [resolve_all, hv, ih', resolve_wrapper]

theorem resolve_all_failed (m : type_map) (L : List type_wrapper) (e : failure)
    (h : (resolve_all m L).2 = some e) :
    ∃ pre w post, L = pre ++ w :: post ∧ (∀ u ∈ pre, ∃ v, resolve_slot m u = .ok v)
      ∧ resolve_slot m w = .error e
      ∧ (resolve_all m L).1 = pre.map (resolve_wrapper m) ++ w :: post := by
  induction L with
  | nil => simp [resolve_all] at h
  | cons u rest ih =>
    cases hu : resolve_slot m u with
    | error e' =>
      simp only [resolve_all, hu, Option.some.injEq] at h
      subst h
      exact ⟨[], u, rest, rfl, by simp, hu, by simp [resolve_all, hu]⟩
    | ok v =>
      simp only [resolve_all, hu] at h
      obtain ⟨pre, w, post, h₁, h₂, h₃, h₄⟩ := ih h
      refine ⟨u :: pre, w, post, by simp [h₁], ?_, h₃, ?_⟩
      · intro x hx
        rcases List.mem_cons.mp hx with rfl | hx
        · exact ⟨v, hu⟩
        · exact h₂ x hx
      · simp [resolve_all, hu, h₄, resolve_wrapper]

/-! ### The first missing name and what a failed run leaves -/

/-- C17 (counterexample): in this unit three wrappers name a type the map has no entry for,
two alias targets and the type slot of a declaration, and the run returns normally: none of
them is reported. -/
theorem type_resolver.run_misses_unreached_names :
    (unreached_dangling_unit.type_wrappers true).filter (names_missing_type example_map)
        = [⟨at_line 1 10, .unresolved_type "nowhere"⟩, ⟨at_line 2 10, .unresolved_type "void"⟩,
            ⟨at_line 5 8, .unresolved_type "missing"⟩]
      ∧ (type_resolver.run example_map unreached_dangling_unit).error = none :=
  ⟨rfl, rfl⟩

/-- C17 (amended): for every tree that has no while loop and no numerical for loop, if the
wrappers held by expression nodes are, in pre-order, `pre`, then `w`, then `post`, every wrapper
of `pre` names a type the map has an entry for and `w` names one it has none for, the run fails
with the exception that carries the range start of `w` and the message "internal compiler
error: cannot resolve type", whatever `post` holds, further missing names included. -/
theorem type_resolver.run_first_missing (m : type_map) (root : statement)
    (pre post : List type_wrapper) (w : type_wrapper) (hl : root.no_while_for = true)
    (hsplit : root.type_wrappers false = pre ++ w :: post)
    (hpre : ∀ u ∈ pre, ∃ name object, u.value = .unresolved_type name ∧ m name = some object)
    (hw : ∃ name, w.value = .unresolved_type name ∧ m name = none) :
    (type_resolver.run m root).error
      = some (.parser_exception w.range.start
          "internal compiler error: cannot resolve type") := by
  obtain ⟨name, hv, hm⟩ := hw
  have hw' : resolve_slot m w
      = .error (.parser_exception w.range.start cannot_resolve) := by
    rw [resolve_slot_unresolved m w name hv, hm]
  have hpre' : ∀ u ∈ pre, ∃ v, resolve_slot m u = .ok v := by
    intro u hu
    obtain ⟨n, object, hv', hm'⟩ := hpre u hu
    exact ⟨.resolved object, by rw [resolve_slot_unresolved m u n hv', hm']⟩
  have hA := statement_visit_resolve_all m root [] hl
  rw [hsplit, resolve_all_first_failure m pre post w _ hpre' hw'] at hA
  unfold type_resolver.run
  rw [← (Prod.mk.inj hA).2]
  rfl

theorem type_resolver.run_first_missing_witness :
    thrice_dangling_unit.no_while_for = true
      ∧ thrice_dangling_unit.type_wrappers false
        = [⟨at_line 1 6, .unresolved_type "int"⟩] ++ ⟨at_line 1 14, .unresolved_type "missing"⟩
          :: [⟨at_line 1 26, .unresolved_type "absent"⟩, ⟨at_line 1 37, .unresolved_type "gone"⟩]
      ∧ (type_resolver.run example_map thrice_dangling_unit).error
        = some (.parser_exception ⟨1, 14⟩ "internal compiler error: cannot resolve type") :=
  ⟨rfl, rfl, type_resolver.run_first_missing example_map thrice_dangling_unit
    [⟨at_line 1 6, .unresolved_type "int"⟩]
    [⟨at_line 1 26, .unresolved_type "absent"⟩, ⟨at_line 1 37, .unresolved_type "gone"⟩]
    ⟨at_line 1 14, .unresolved_type "missing"⟩ rfl rfl
    (by
      intro u hu
      have hu' : u = ⟨at_line 1 6, .unresolved_type "int"⟩ := by simpa using hu
      exact ⟨"int", 0, by rw [hu'], rfl⟩)
    ⟨"missing", rfl, rfl⟩⟩

/-- C18: when a run fails with the resolver's exception, the wrappers the traversal reaches
are, in the order it reaches them, `pre`, then the failing wrapper `w`, then `post`; after the
run every wrapper of `pre` holds the map's entry for the name it held, and `w` and `post` are
as they were: the run is not rolled back. The tree can be what it was before the run only if
`pre` is empty, that is, if the failing wrapper is the first one reached. -/
theorem type_resolver.run_not_rolled_back (m : type_map) (root : statement) (p : position)
    (msg : String) (h : (type_resolver.run m root).error = some (.parser_exception p msg)) :
    ∃ pre w post, root.reached_type_wrappers = pre ++ w :: post
      ∧ (type_resolver.run m root).node.reached_type_wrappers
          = pre.map (resolve_wrapper m) ++ w :: post
      ∧ (∀ u ∈ pre, ∃ name object, u.value = .unresolved_type name ∧ m name = some object
          ∧ (resolve_wrapper m u).value = .resolved object)
      ∧ (∃ name, w.value = .unresolved_type name ∧ m name = none)
      ∧ p = w.range.start
      ∧ ((type_resolver.run m root).node = root → pre = []) := by
  have hA := statement_visit_reached m root []
  unfold type_resolver.run at h ⊢
  have h2 : (resolve_all m root.reached_type_wrappers).2 = some (.parser_exception p msg) := by
    rw [hA]; exact h
  obtain ⟨pre, w, post, h₁, h₂, h₃, h₄⟩ := resolve_all_failed m _ _ h2
  have hres : (statement.visit (resolver m) root []).node.reached_type_wrappers
      = pre.map (resolve_wrapper m) ++ w :: post := by
    rw [← h₄, hA]
  have hpre : ∀ u ∈ pre, ∃ name object, u.value = .unresolved_type name ∧ m name = some object
      ∧ (resolve_wrapper m u).value = .resolved object := by
    intro u hu
    obtain ⟨v, hv⟩ := h₂ u hu
    obtain ⟨name, object, hn, hm, rfl⟩ := resolve_slot_ok m u v hv
    exact ⟨name, object, hn, hm, by simp [resolve_wrapper, hv]⟩
  obtain ⟨name, hv, hm, hp, _⟩ := resolve_slot_parser_exception m w p msg h₃
  refine ⟨pre, w, post, h₁, hres, hpre, ⟨name, hv, hm⟩, hp, ?_⟩
  intro hsame
  rw [hsame, h₁] at hres
  have hmap : pre = pre.map (resolve_wrapper m) := List.append_cancel_right hres
  cases pre with
  | nil => rfl
  | cons u rest =>
    obtain ⟨n, object, hn, _, hr⟩ := hpre u (List.mem_cons_self _ _)
    have hu : u = resolve_wrapper m u := by
      simp only [List.map_cons, List.cons.injEq] at hmap
      exact hmap.1
    rw [← hu, hn] at hr
    simp at hr

theorem type_resolver.run_not_rolled_back_witness :
    (type_resolver.run example_map dangling_unit).error
        = some (.parser_exception ⟨1, 14⟩ cannot_resolve)
      ∧ (type_resolver.run example_map dangling_unit).node.reached_type_wrappers
        = [⟨at_line 1 6, .resolved 0⟩, ⟨at_line 1 14, .unresolved_type "missing"⟩,
            ⟨at_line 1 26, .unresolved_type "bool"⟩]
      ∧ ∃ pre w post, dangling_unit.reached_type_wrappers = pre ++ w :: post
        ∧ (type_resolver.run example_map dangling_unit).node.reached_type_wrappers
            = pre.map (resolve_wrapper example_map) ++ w :: post
        ∧ (∀ u ∈ pre, ∃ name object, u.value = .unresolved_type name
            ∧ example_map name = some object
            ∧ (resolve_wrapper example_map u).value = .resolved object)
        ∧ (∃ name, w.value = .unresolved_type name ∧ example_map name = none)
        ∧ (⟨1, 14⟩ : position) = w.range.start
        ∧ ((type_resolver.run example_map dangling_unit).node = dangling_unit → pre = []) :=
  ⟨rfl, rfl,
    type_resolver.run_not_rolled_back example_map dangling_unit ⟨1, 14⟩ cannot_resolve rfl⟩

/-- C15: for every tree whose reached type wrappers are unresolved when the run starts, the
handler invocations of a run are a subsequence of the pre-order listing of the tree's nodes, in
which every node stands once: no handler, on a type wrapper, a number wrapper or any other
node, runs twice on one node. So the type wrapper handler only ever sees a slot as the parser
left it, and the run cannot end in the cast of an already replaced slot. -/
theorem type_resolver.run_visits_once (m : type_map) (root : statement)
    (hu : ∀ u ∈ root.reached_type_wrappers, ∃ name, u.value = .unresolved_type name) :
    (type_resolver.run m root).trace.Sublist (root.nodes true)
      ∧ (type_resolver.run m root).error ≠ some .undefined_cast := by
  constructor
  · exact statement_visit_trace_sublist (resolver m) root []
  · have hA := statement_visit_reached m root []
    have hE := resolve_all_error m _ hu
    rw [hA] at hE
    simp only at hE
    unfold type_resolver.run
    rw [hE]
    cases List.find? (names_missing_type m) root.reached_type_wrappers <;> simp

theorem type_resolver.run_visits_once_witness :
    (∀ u ∈ dangling_unit.reached_type_wrappers, ∃ name, u.value = .unresolved_type name)
      ∧ (type_resolver.run example_map dangling_unit).trace.Sublist (dangling_unit.nodes true)
      ∧ (type_resolver.run example_map dangling_unit).error ≠ some .undefined_cast :=
  have hu : ∀ u ∈ dangling_unit.reached_type_wrappers,
      ∃ name, u.value = .unresolved_type name := by
    intro u hu
    have hu' : u = ⟨at_line 1 6, .unresolved_type "int"⟩
        ∨ u = ⟨at_line 1 14, .unresolved_type "missing"⟩
        ∨ u = ⟨at_line 1 26, .unresolved_type "bool"⟩ := by
      have hr : dangling_unit.reached_type_wrappers
          = [⟨at_line 1 6, .unresolved_type "int"⟩,
              ⟨at_line 1 14, .unresolved_type "missing"⟩,
              ⟨at_line 1 26, .unresolved_type "bool"⟩] := rfl
      rw [hr] at hu
      simpa using hu
    rcases hu' with rfl | rfl | rfl <;> exact ⟨_, rfl⟩
  ⟨hu, type_resolver.run_visits_once example_map dangling_unit hu⟩

end resolution

/-! ### The handler chain of `visitor.h` -/

namespace visitor_h

/-- C9: a visitor that overrides no handler returns true, leaving the state alone, for a node
handed to any of the four handlers (`node`, `statement`, `restricted_statement`,
`restricted_block`); a visitor that overrides the `statement` handler alone, with `h`, answers a
`restricted_statement` and a `restricted_block` with exactly what one call of `h` on that node
gives; and in general a handler that is not overridden gives what its parent's handler gives. -/
theorem fallback (α σ : Type) (a : α) (st : σ) (h : α → σ → Bool × σ) :
    (visit_node (visitor.default α σ) a st = (true, st)
        ∧ visit_statement (visitor.default α σ) a st = (true, st)
        ∧ visit_restricted_statement (visitor.default α σ) a st = (true, st)
        ∧ visit_restricted_block (visitor.default α σ) a st = (true, st))
      ∧ (visit_statement ⟨none, some h, none, none⟩ a st = h a st
        ∧ visit_restricted_statement ⟨none, some h, none, none⟩ a st = h a st
        ∧ visit_restricted_block ⟨none, some h, none, none⟩ a st = h a st)
      ∧ (∀ n s b, visit_restricted_statement ⟨n, s, none, b⟩ a st
            = visit_statement ⟨n, s, none, b⟩ a st)
      ∧ (∀ n s r, visit_restricted_block ⟨n, s, r, none⟩ a st
            = visit_statement ⟨n, s, r, none⟩ a st)
      ∧ (∀ n r b, visit_statement ⟨n, none, r, b⟩ a st = visit_node ⟨n, none, r, b⟩ a st) :=
  ⟨⟨rfl, rfl, rfl, rfl⟩, ⟨rfl, rfl, rfl⟩, fun _ _ _ => rfl, fun _ _ _ => rfl, fun _ _ _ => rfl⟩

end visitor_h

section parsing

/-- C13: with a precedence table in which `+` and `-` have a precedence above 0 and `*` one
above that of `+`, `parse_sub_expression` with limit 0 (and fuel 6 or more) turns `a + b * c`
into the addition with the multiplication as its right child, and `a - b - c` into the second
subtraction with the first as its left child, reading all lexemes; and an infix operator whose
precedence is not strictly greater than the limit is not consumed: the expression read so far
is returned with that operator pending. -/
theorem parse_sub_expression_precedence (precedence : String → Nat)
    (hplus : 0 < precedence "+") (hstar : precedence "+" < precedence "*")
    (hminus : 0 < precedence "-") :
    (∀ fuel, parse_sub_expression precedence (fuel + 6) 0
        [.name "a", .infix_operator "+", .name "b", .infix_operator "*", .name "c"]
      = some (.binary "+" (.variable "a") (.binary "*" (.variable "b") (.variable "c")),
          none, []))
    ∧ (∀ fuel, parse_sub_expression precedence (fuel + 6) 0
        [.name "a", .infix_operator "-", .name "b", .infix_operator "-", .name "c"]
      = some (.binary "-" (.binary "-" (.variable "a") (.variable "b")) (.variable "c"),
          none, []))
    ∧ (∀ fuel limit text symbol rest, precedence symbol ≤ limit →
        parse_sub_expression precedence (fuel + 2) limit
          (.name text :: .infix_operator symbol :: rest)
        = some (.variable text, some symbol, .infix_operator symbol :: rest))
    ∧ (∀ fuel limit left symbol rest, precedence symbol ≤ limit →
        parse_sub_expression_loop precedence (fuel + 1) limit left
          (.infix_operator symbol :: rest)
        = some (left, some symbol, .infix_operator symbol :: rest)) := by
  refine ⟨?_, ?_, ?_, ?_⟩
  · intro fuel
    simp [parse_sub_expression, parse_sub_expression_loop, parse_simple_expression,
      pending_operator, hplus, hstar, Nat.not_lt.mpr (Nat.le_of_lt hstar)]
  · intro fuel
    simp [parse_sub_expression, parse_sub_expression_loop, parse_simple_expression,
      pending_operator, hminus]
  · intro fuel limit text symbol rest h
    simp [parse_sub_expression, parse_sub_expression_loop, parse_simple_expression,
      Nat.not_lt.mpr h]
  · intro fuel limit left symbol rest h
    simp [parse_sub_expression_loop, Nat.not_lt.mpr h]

theorem parse_sub_expression_precedence_witness :
    parse_expression example_precedence
        [.name "a", .infix_operator "+", .name "b", .infix_operator "*", .name "c"]
      = some (.binary "+" (.variable "a") (.binary "*" (.variable "b") (.variable "c")),
          none, [])
    ∧ parse_expression example_precedence
        [.name "a", .infix_operator "-", .name "b", .infix_operator "-", .name "c"]
      = some (.binary "-" (.binary "-" (.variable "a") (.variable "b")) (.variable "c"),
          none, [])
    ∧ parse_sub_expression example_precedence 3 1
        [.name "a", .infix_operator "+", .name "b"]
      = some (.variable "a", some "+", [.infix_operator "+", .name "b"]) :=
  have h := parse_sub_expression_precedence example_precedence (by decide) (by decide)
    (by decide)
  ⟨h.1 6, h.2.1 6, h.2.2.1 1 1 "a" "+" [.name "b"] (by decide)⟩

end parsing

end seam
